import Mathlib

/-!
The easyshell agent: job executor, session multiplexer, heartbeat.

A shallow embedding of the protocol layer of the easyshell agent
(`internal/ws/client.go`, `internal/terminal/terminal.go`,
`internal/heartbeat/heartbeat.go`, and `applyRemoteConfig` of `cmd/agent/main.go`).

Conventions of the embedding:

* Go `string` is `String`; Go `int` and `time.Duration` are `Int`, with the
  64-bit wrap-around made explicit where an arithmetic result can leave the range;
* everything the code obtains from the outside (what the script prints and how it
  exits, whether a socket write fails, whether a pseudo-terminal can be spawned) is
  an explicit input of the function that consumes it;
* everything the code does to the outside (frames written to the socket, calls of
  the plain-HTTP client) is returned as an ordered list of `Effect`s;
* Go pointers to sessions are indices into a heap of session records, so that a
  session object is still observable after it has been removed from the map.
-/

namespace EasyShell

/-! ## Machine integers and durations -/

/-- Two's-complement wrap of an integer into the signed 64-bit range. -/
def wrap64 (x : Int) : Int := (x + 2 ^ 63) % 2 ^ 64 - 2 ^ 63

/-- The constant `time.Second`, in nanoseconds. -/
def Second : Int := 1000000000

/-- The constant `time.Minute`, in nanoseconds. -/
def Minute : Int := 60 * Second

/-- The expression `time.Duration(n) * time.Second` for a Go `int` value `n`. -/
def secondsToDuration (n : Int) : Int := wrap64 (wrap64 n * Second)

/-! ## Messages of the duplex connection (`internal/ws/client.go`) -/

/-- The Go struct `ExecuteMessage`. -/
structure ExecuteMessage where
  msgType : String
  JobID : String
  TaskID : String
  Script : String
  Timeout : Int
deriving DecidableEq, Repr

/-- The Go struct `LogMessage`. -/
structure LogMessage where
  msgType : String
  JobID : String
  Log : String
deriving DecidableEq, Repr

/-- The Go struct `ResultMessage`. -/
structure ResultMessage where
  msgType : String
  JobID : String
  Status : Int
  ExitCode : Int
  Output : String
deriving DecidableEq, Repr

/-- The Go struct `client.JobResultRequest` (`internal/client/http.go`). -/
structure JobResultRequest where
  JobID : String
  AgentID : String
  Status : Int
  ExitCode : Int
  Output : String
deriving DecidableEq, Repr

/-- The values handed to `sendJSON`: the two message structs and the three
`map[string]interface{}` payloads built in `handleTerminalMessage`. -/
inductive OutMsg where
  | log (m : LogMessage)
  | result (m : ResultMessage)
  | terminalOutput (sessionId data : String)
  | terminalError (sessionId data : String)
  | terminalReady (sessionId : String)
deriving DecidableEq, Repr

/-- What the client does to the outside world. -/
inductive Effect where
  /-- The call `c.conn.WriteMessage(websocket.TextMessage, data)` with `data` the encoding of `m`. -/
  | wsWrite (m : OutMsg)
  /-- The call `c.httpClient.ReportJobLog(jobID, line)`. -/
  | httpReportJobLog (jobID line : String)
  /-- The call `c.httpClient.ReportJobResult(req)`. -/
  | httpReportJobResult (req : JobResultRequest)
deriving DecidableEq, Repr

/-- A connection handle (`*websocket.Conn`), identified by a number. -/
abbrev Conn := Nat

/-- The circumstances of one call of `sendJSON`: the value of `c.conn` read under
the lock, whether `json.Marshal` fails, and whether `WriteMessage` fails. -/
structure SendEnv where
  conn : Option Conn
  marshalErr : Option String
  writeErr : Option String
deriving DecidableEq, Repr

/-- The method `Client.sendJSON`: the returned error (`none` is Go's `nil`) and the
socket write performed, if any. -/
def sendJSON (env : SendEnv) (v : OutMsg) : Option String × List Effect :=
  match env.conn with
  | none => (some "no connection", [])
  | some _ =>
    match env.marshalErr with
    | some e => (some e, [])
    | none => (env.writeErr, [Effect.wsWrite v])

/-! ## The job executor (`Client.executeJob`) -/

/-- What `Executor.ExecuteWithCallback` does for one script under one deadline: the
lines handed to the callback, in callback order, and the returned pair. -/
structure RunOutcome where
  lines : List String
  exitCode : Int
  err : Option String
deriving DecidableEq, Repr

/-- Everything outside `executeJob` that its run depends on: the process runner,
the circumstances of the push of the `i`-th streamed line, and the circumstances of
the push of the result. -/
structure JobWorld where
  runner : Int → String → RunOutcome
  logEnv : Nat → SendEnv
  resultEnv : SendEnv

/-- Lines 166-169 of `executeJob`: the duration handed to `context.WithTimeout` for
a message whose `timeout` field is `t`. -/
def jobTimeout (t : Int) : Int :=
  let timeout := secondsToDuration t
  if timeout = 0 then wrap64 (10 * Minute) else timeout

/-- The closure `onLog` of `executeJob`, as a step on the pair of the lines
aggregated so far and the effects performed so far. -/
def onLog (jobID : String) (env : SendEnv) (line : String)
    (acc : List String × List Effect) : List String × List Effect :=
  let outputLines := acc.1 ++ [line]
  let logMsg : LogMessage := { msgType := "log", JobID := jobID, Log := line }
  let sent := sendJSON env (OutMsg.log logMsg)
  match sent.1 with
  | some _ => (outputLines, acc.2 ++ sent.2 ++ [Effect.httpReportJobLog jobID line])
  | none => (outputLines, acc.2 ++ sent.2)

/-- The callbacks made by the runner, one per streamed line, the `i`-th of them
under `logEnv i`. -/
def streamLog (jobID : String) (logEnv : Nat → SendEnv) :
    Nat → List String → List String × List Effect → List String × List Effect
  | _, [], acc => acc
  | i, line :: rest, acc => streamLog jobID logEnv (i + 1) rest (onLog jobID (logEnv i) line acc)

/-- The constant `statusSuccess` of `executeJob`. -/
def statusSuccess : Int := 2

/-- The constant `statusFailed` of `executeJob`. -/
def statusFailed : Int := 3

/-- Lines 198-227 of `executeJob`: the result message built from the aggregated
lines and the pair returned by the runner. -/
def buildResult (jobID : String) (outputLines : List String) (exitCode : Int)
    (err : Option String) : ResultMessage :=
  let fullOutput := String.intercalate "\n" outputLines
  match err with
  | some e =>
    { msgType := "result", JobID := jobID, Status := statusFailed, ExitCode := exitCode,
      Output := if fullOutput ≠ "" then fullOutput ++ "\n" ++ e else e }
  | none =>
    if exitCode ≠ 0 then
      { msgType := "result", JobID := jobID, Status := statusFailed, ExitCode := exitCode,
        Output := if fullOutput ≠ "" then fullOutput ++ "\nexit code: " ++ toString exitCode
                  else "exit code: " ++ toString exitCode }
    else
      { msgType := "result", JobID := jobID, Status := statusSuccess, ExitCode := exitCode,
        Output := fullOutput }

/-- What one run of `executeJob` amounts to. -/
structure JobTrace where
  /-- The duration handed to `context.WithTimeout`. -/
  timeout : Int
  /-- The lines aggregated by the callback. -/
  outputLines : List String
  /-- The result message built after the runner returned. -/
  result : ResultMessage
  /-- Whether the push of the result message succeeded. -/
  pushError : Option String
  /-- Socket writes and plain-HTTP calls, in the order performed. -/
  effects : List Effect
deriving DecidableEq, Repr

/-- The method `Client.executeJob` for a client whose agent id is `agentID`. -/
def executeJob (agentID : String) (msg : ExecuteMessage) (w : JobWorld) : JobTrace :=
  let timeout := jobTimeout msg.Timeout
  let out := w.runner timeout msg.Script
  let streamed := streamLog msg.JobID w.logEnv 0 out.lines ([], [])
  let result := buildResult msg.JobID streamed.1 out.exitCode out.err
  let sent := sendJSON w.resultEnv (OutMsg.result result)
  let fallback : List Effect :=
    match sent.1 with
    | some _ =>
      [Effect.httpReportJobResult
        { JobID := msg.JobID, AgentID := agentID, Status := result.Status,
          ExitCode := result.ExitCode, Output := result.Output }]
    | none => []
  { timeout := timeout, outputLines := streamed.1, result := result, pushError := sent.1,
    effects := streamed.2 ++ sent.2 ++ fallback }

/-! ## Address derivation (`Client.buildWSURL`) -/

/-- Go's `strings.Replace(s, old, new, 1)` on the characters of the strings: the
first occurrence of `old` in `s`, scanning from the left, is replaced by `new`; an
empty `old` matches at the very start. -/
def replaceFirst (old new : List Char) : List Char → List Char
  | [] => if old = [] then new else []
  | c :: s =>
    if old.isPrefixOf (c :: s) then new ++ (c :: s).drop old.length
    else c :: replaceFirst old new s

/-- The call `strings.Replace(s, old, new, 1)`. -/
def stringsReplaceOnce (s old new : String) : String :=
  ⟨replaceFirst old.data new.data s.data⟩

/-- Whether `sub` occurs in `s` (Go's `strings.Contains(s, sub)`). -/
def stringsContains (s sub : String) : Bool :=
  s.data.tails.any (fun t => sub.data.isPrefixOf t)

/-- The method `Client.buildWSURL`, for a client with the given `ServerURL` and `AgentID`. -/
def buildWSURL (serverURL agentID : String) : String :=
  let url := serverURL
  let url := stringsReplaceOnce url "https://" "wss://"
  let url := stringsReplaceOnce url "http://" "ws://"
  url ++ "/ws/agent/" ++ agentID

/-! ## Terminal sessions (`internal/terminal/terminal.go`) -/

/-- The Go struct `Session`. The process and pseudo-terminal handles are represented
by what has been done to them: how often `cancel` and `ptmx.Close` were called, the
data handed to `ptmx.Write`, and the window size last set. -/
structure Session where
  ID : String
  closed : Bool
  cancelCalls : Nat
  ptmxCloses : Nat
  written : List String
  cols : Nat
  rows : Nat
deriving DecidableEq, Repr

/-- The function `NewSession`; `startErr` is the error of `pty.Start`, if any. A new
session is open and has the initial size of 80 columns by 24 rows. -/
def NewSession (id : String) (startErr : Option String) : Except String Session :=
  match startErr with
  | some e => Except.error ("start pty: " ++ e)
  | none =>
    Except.ok { ID := id, closed := false, cancelCalls := 0, ptmxCloses := 0,
                written := [], cols := 80, rows := 24 }

/-- The method `Session.Write`; `ptyErr` is the error of `s.ptmx.Write`, if any. -/
def Session.Write (s : Session) (data : String) (ptyErr : Option String) :
    Session × Option String :=
  if s.closed then (s, some "session closed")
  else ({ s with written := s.written ++ [data] }, ptyErr)

/-- The method `Session.Resize`; `ptyErr` is the error of `pty.Setsize`, if any. -/
def Session.Resize (s : Session) (cols rows : Nat) (ptyErr : Option String) :
    Session × Option String :=
  if s.closed then (s, some "session closed")
  else ({ s with cols := cols, rows := rows }, ptyErr)

/-- The method `Session.Close`. -/
def Session.Close (s : Session) : Session :=
  if s.closed then s
  else { s with closed := true, cancelCalls := s.cancelCalls + 1, ptmxCloses := s.ptmxCloses + 1 }

/-- A `*Session`: the position of the session object among the objects allocated so far. -/
abbrev Ptr := Nat

/-- The Go struct `Manager` together with the session objects its pointers refer to:
`sessions` is the field `sessions map[string]*Session`, `heap` holds every session
object created so far, whether or not the map still refers to it. -/
structure Manager where
  heap : List Session
  sessions : AList (fun _ : String => Ptr)
deriving DecidableEq

/-- The function `NewManager`. -/
def NewManager : Manager := { heap := [], sessions := ∅ }

/-- A method call through the pointer `p`: the object at `p` is replaced by `f` of
it. A pointer to no object (which the code never stores) is left alone. -/
def updateAt (heap : List Session) (p : Ptr) (f : Session → Session) : List Session :=
  match heap[p]? with
  | some s => heap.set p (f s)
  | none => heap

/-- The method `Manager.Create`. The result is the new state and either the error of
`NewSession` or the pointer to the new session. -/
def Manager.Create (m : Manager) (id : String) (startErr : Option String) :
    Manager × Except String Ptr :=
  let m1 : Manager :=
    match m.sessions.lookup id with
    | some existing =>
      { heap := updateAt m.heap existing Session.Close, sessions := m.sessions.erase id }
    | none => m
  match NewSession id startErr with
  | Except.error e => (m1, Except.error e)
  | Except.ok session =>
    ({ heap := m1.heap ++ [session], sessions := m1.sessions.insert id m1.heap.length },
      Except.ok m1.heap.length)

/-- The method `Manager.Get`. -/
def Manager.Get (m : Manager) (id : String) : Option Ptr :=
  m.sessions.lookup id

/-- The method `Manager.Close`. -/
def Manager.Close (m : Manager) (id : String) : Manager :=
  match m.sessions.lookup id with
  | some session =>
    { heap := updateAt m.heap session Session.Close, sessions := m.sessions.erase id }
  | none => m

/-- The body of the loop of `Manager.CloseAll`, run over the entries `es` in turn. -/
def Manager.closeEntries (m : Manager) (es : List (Sigma (fun _ : String => Ptr))) : Manager :=
  es.foldl
    (fun acc e => { heap := updateAt acc.heap e.2 Session.Close,
                    sessions := acc.sessions.erase e.1 })
    m

/-- The method `Manager.CloseAll`. Go visits the entries of a map in an unspecified
order; here they are visited in the order in which the map stores them. -/
def Manager.CloseAll (m : Manager) : Manager :=
  m.closeEntries m.sessions.entries

/-! ### Decoded frames -/

/-- A JSON value of a frame, as far as the code looks at it: strings, numbers
written as integer literals, other numbers, `null`, and everything else (booleans,
arrays, objects). -/
inductive JVal where
  /-- A string. -/
  | str (s : String)
  /-- A number written as an integer literal (an optional minus sign and digits),
  with its value. -/
  | num (n : Int)
  /-- A number written with a fraction or an exponent, such as `5.0`, given by the
  integer part of the `float64` it decodes to. -/
  | frac (n : Int)
  /-- The value `null`. -/
  | null
  /-- A boolean, an array or an object. -/
  | other
deriving DecidableEq, Repr

/-- The value of type `map[string]interface{}` produced by `json.Unmarshal`. -/
abbrev JObj := List (String × JVal)

/-- The expression `v, _ := msg[key].(string)`: the empty string unless the key
is present with a string value. -/
def JObj.getString (msg : JObj) (key : String) : String :=
  match msg.lookup key with
  | some (JVal.str s) => s
  | _ => ""

/-- The expression `v, _ := msg[key].(float64)`, by the integer part of the
number: zero unless the key is present with a number. -/
def JObj.getNumber (msg : JObj) (key : String) : Int :=
  match msg.lookup key with
  | some (JVal.num n) => n
  | some (JVal.frac n) => n
  | _ => 0

/-- The conversion `uint16(x)` of a `float64` whose integer part is `x`: the
fraction is discarded, so a value from 0 to 65535 is converted to itself; for any
other value Go leaves the result to the implementation, and it is given here by
`outOfRange`. -/
def toUint16 (outOfRange : Int → Nat) (x : Int) : Nat :=
  if 0 ≤ x ∧ x ≤ 65535 then x.toNat else outOfRange x % 65536

/-- An inbound frame, given by what `json.Unmarshal(data, &msg)` makes of it: an
error text or the decoded map. -/
abbrev Frame := Except String JObj

/-- The circumstances of one call of `Manager.HandleMessage`: the error of
`pty.Start` and the error of the pseudo-terminal operation, if any, and what the
platform makes of the conversion to `uint16` of a number that is out of range. -/
structure TermIO where
  startErr : Option String
  ptyErr : Option String
  outOfRange : Int → Nat

/-- A method call through `p` that also returns an error value. -/
def callAt (m : Manager) (p : Ptr) (f : Session → Session × Option String) :
    Manager × Option String :=
  match m.heap[p]? with
  | some s => ({ m with heap := m.heap.set p (f s).1 }, (f s).2)
  | none => (m, some "nil session")

/-- The method `Manager.HandleMessage`: the new state and the returned error
(`none` is Go's `nil`). -/
def Manager.HandleMessage (m : Manager) (frame : Frame) (io : TermIO) :
    Manager × Option String :=
  match frame with
  | Except.error e => (m, some ("unmarshal: " ++ e))
  | Except.ok msg =>
    let sessionID := msg.getString "sessionId"
    if sessionID = "" then (m, some "missing sessionId")
    else
      let msgType := msg.getString "type"
      if msgType = "terminal_open" then
        match m.Create sessionID io.startErr with
        | (m1, Except.error e) => (m1, some ("create session: " ++ e))
        | (m1, Except.ok _) => (m1, none)
      else if msgType = "terminal_input" then
        match m.Get sessionID with
        | none => (m, some ("session not found: " ++ sessionID))
        | some session =>
          let input := msg.getString "data"
          callAt m session (fun s => s.Write input io.ptyErr)
      else if msgType = "terminal_resize" then
        match m.Get sessionID with
        | none => (m, some ("session not found: " ++ sessionID))
        | some session =>
          let cols := msg.getNumber "cols"
          let rows := msg.getNumber "rows"
          callAt m session
            (fun s => s.Resize (toUint16 io.outOfRange cols) (toUint16 io.outOfRange rows)
              io.ptyErr)
      else if msgType = "terminal_close" then
        (m.Close sessionID, none)
      else
        (m, some ("unknown terminal message type: " ++ msgType))

/-- The inbound terminal frame of type `ty` for session `sessionID` with the given
further fields. -/
def terminalFrame (ty sessionID : String) (fields : JObj) : Frame :=
  Except.ok (("type", JVal.str ty) :: ("sessionId", JVal.str sessionID) :: fields)

/-! ### Runs of the multiplexer -/

/-- What can happen to a manager and its sessions. -/
inductive Event where
  /-- A call of `HandleMessage`. -/
  | message (frame : Frame) (io : TermIO)
  /-- A direct call of `Create`. -/
  | create (id : String) (startErr : Option String)
  /-- A direct call of `Close`. -/
  | close (id : String)
  /-- A call of `CloseAll`. -/
  | closeAll
  /-- The shell of the session at `p` exits and its waiter calls `session.Close()`. -/
  | processExit (p : Ptr)

/-- The effect of one event. -/
def Manager.step (m : Manager) : Event → Manager
  | Event.message frame io => (m.HandleMessage frame io).1
  | Event.create id startErr => (m.Create id startErr).1
  | Event.close id => m.Close id
  | Event.closeAll => m.CloseAll
  | Event.processExit p => { m with heap := updateAt m.heap p Session.Close }

/-- The state after a sequence of events. -/
def Manager.run (m : Manager) (events : List Event) : Manager :=
  events.foldl Manager.step m

/-- The sessions with key `k` that are live (not closed), by pointer. -/
def Manager.live (m : Manager) (k : String) : List Ptr :=
  (List.range m.heap.length).filter
    (fun p => match m.heap[p]? with
      | some s => decide (s.ID = k) && !s.closed
      | none => false)

/-! ## The client's connection handle (`Client.close`) -/

/-- The Go struct `Client`, without its stateless collaborators. -/
structure Client where
  ServerURL : String
  AgentID : String
  termManager : Manager
  conn : Option Conn
deriving DecidableEq

/-- The method `Client.close`. -/
def Client.close (c : Client) : Client :=
  match c.conn with
  | some _ => { c with termManager := c.termManager.CloseAll, conn := none }
  | none => c

/-! ## The heartbeat service (`internal/heartbeat/heartbeat.go`) -/

/-- The Go struct `client.HTTPClient`, as far as the agent configures it. -/
structure HTTPClient where
  ServerURL : String
deriving DecidableEq, Repr

/-- The Go struct `Service`; `interval` is a `time.Duration` in nanoseconds. -/
structure Service where
  client : HTTPClient
  agentID : String
  interval : Int
deriving DecidableEq, Repr

/-- The function `NewService`. -/
def NewService (c : HTTPClient) (agentID : String) (intervalSec : Int) : Service :=
  { client := c, agentID := agentID, interval := secondsToDuration intervalSec }

/-- The method `Service.UpdateInterval`. -/
def Service.UpdateInterval (s : Service) (newInterval : Int) : Service :=
  if newInterval ≠ s.interval ∧ newInterval ≥ 1 * Second then
    { s with interval := newInterval }
  else s

/-- The method `Service.getInterval`. -/
def Service.getInterval (s : Service) : Int := s.interval


/-! ## The dispatcher (`Client.handleMessage`, `Client.handleTerminalMessage`) -/

/-- The members of the top-level JSON object of a frame, in the order in which they
are written; a key may occur more than once. -/
abbrev JDoc := List (String × JVal)

/-- The map that `json.Unmarshal(data, &msg)` builds from the members of the
object: of several members with the same key, the one written last counts. -/
def JDoc.toMap (doc : JDoc) : JObj := doc.reverse

/-- An inbound frame as `handleMessage` receives it: the error of the first
`json.Unmarshal` for a frame that is not a JSON object, or the members of the object. -/
abbrev RawFrame := Except String JDoc

/-- Simple case folding of a character, as far as it can make the character equal
to an ASCII letter: capital letters go to small letters, the Kelvin sign goes to `k`
and the long s goes to `s`. -/
def foldChar (c : Char) : Char :=
  if c.isUpper then c.toLower
  else if c = Char.ofNat 8490 then 'k'
  else if c = Char.ofNat 383 then 's'
  else c

/-- Whether a key of the frame equals a struct field name made of ASCII letters
when case is ignored, as `encoding/json` compares them. -/
def equalFold (key name : String) : Bool :=
  key.data.map foldChar == name.data.map foldChar

/-- The fields of the Go struct `ExecuteMessage`. -/
inductive ExecField where
  | msgType
  | jobId
  | taskId
  | script
  | timeout
deriving DecidableEq, Repr

/-- The JSON name of a field, from its struct tag. -/
def ExecField.name : ExecField → String
  | ExecField.msgType => "type"
  | ExecField.jobId => "jobId"
  | ExecField.taskId => "taskId"
  | ExecField.script => "script"
  | ExecField.timeout => "timeout"

/-- The fields in the order of the struct. -/
def ExecField.all : List ExecField :=
  [ExecField.msgType, ExecField.jobId, ExecField.taskId, ExecField.script, ExecField.timeout]

/-- The field that `json.Unmarshal` fills from a member with the given key: the
field of exactly that name, or else the first field whose name equals the key when
case is ignored; a key that matches no field is skipped. -/
def fieldFor (key : String) : Option ExecField :=
  match ExecField.all.find? (fun f => decide (f.name = key)) with
  | some f => some f
  | none => ExecField.all.find? (fun f => equalFold key f.name)

/-- The state of `json.Unmarshal(data, &execMsg)` while it goes through the members:
the struct as filled so far and the first type error met, if any. -/
structure Decoding where
  msg : ExecuteMessage
  err : Option String
deriving DecidableEq, Repr

/-- A type error is recorded unless one has been recorded before; decoding goes on. -/
def Decoding.fail (d : Decoding) (e : String) : Decoding :=
  match d.err with
  | some _ => d
  | none => { d with err := some e }

/-- The assignment of a string to one of the string fields. -/
def setStringField (f : ExecField) (s : String) (m : ExecuteMessage) : ExecuteMessage :=
  match f with
  | ExecField.msgType => { m with msgType := s }
  | ExecField.jobId => { m with JobID := s }
  | ExecField.taskId => { m with TaskID := s }
  | ExecField.script => { m with Script := s }
  | ExecField.timeout => m

/-- What `json.Unmarshal` does with one member of the object: `null` leaves the
field as it is; a string field takes a string, and the `int` field takes a number
written as an integer literal within 64 bits; any other value for a field is a type
error and leaves the field as it is. -/
def decodeMember (d : Decoding) (member : String × JVal) : Decoding :=
  match fieldFor member.1 with
  | none => d
  | some ExecField.timeout =>
    match member.2 with
    | JVal.null => d
    | JVal.num n =>
      if -9223372036854775808 ≤ n ∧ n ≤ 9223372036854775807 then
        { d with msg := { d.msg with Timeout := n } }
      else d.fail "json: cannot unmarshal number into Go struct field ExecuteMessage.timeout of type int"
    | _ => d.fail "json: cannot unmarshal into Go struct field ExecuteMessage.timeout of type int"
  | some f =>
    match member.2 with
    | JVal.null => d
    | JVal.str s => { d with msg := setStringField f s d.msg }
    | _ => d.fail ("json: cannot unmarshal into Go struct field ExecuteMessage." ++ f.name ++
        " of type string")

/-- The zero value of `ExecuteMessage`. -/
def ExecuteMessage.zero : ExecuteMessage :=
  { msgType := "", JobID := "", TaskID := "", Script := "", Timeout := 0 }

/-- The call `json.Unmarshal(data, &execMsg)` of `handleMessage` on a frame that is
a JSON object: the members are gone through in the order written, and the first type
error, if there is one, is returned at the end. -/
def decodeExecuteMessage (doc : JDoc) : Except String ExecuteMessage :=
  match (doc.foldl decodeMember { msg := ExecuteMessage.zero, err := none }).err with
  | some e => Except.error e
  | none => Except.ok (doc.foldl decodeMember { msg := ExecuteMessage.zero, err := none }).msg

/-- What one call of the dispatcher amounts to: the client afterwards, the jobs
handed to `go c.executeJob`, the values handed to `sendJSON`, and the socket writes
performed. -/
structure Dispatch where
  client : Client
  started : List ExecuteMessage
  sent : List OutMsg
  effects : List Effect

/-- A call of the dispatcher that does nothing. -/
def Dispatch.dropped (c : Client) : Dispatch :=
  { client := c, started := [], sent := [], effects := [] }

/-- The method `Client.handleTerminalMessage`. `io` gives the outcome of the
pseudo-terminal operations and `wire` the encoding and write errors of the reply;
the connection handle of the reply is the client's own. The output callback handed
to the multiplexer runs later, when the shell prints, and is not part of the call. -/
def Client.handleTerminalMessage (c : Client) (msg : JObj) (io : TermIO) (wire : SendEnv) :
    Dispatch :=
  let sessionID := msg.getString "sessionId"
  let msgType := msg.getString "type"
  let handled := c.termManager.HandleMessage (Except.ok msg) io
  let c1 : Client := { c with termManager := handled.1 }
  match handled.2 with
  | some err =>
    let errPayload := OutMsg.terminalError sessionID err
    { client := c1, started := [], sent := [errPayload],
      effects := (sendJSON { wire with conn := c.conn } errPayload).2 }
  | none =>
    if msgType = "terminal_open" then
      let readyPayload := OutMsg.terminalReady sessionID
      { client := c1, started := [], sent := [readyPayload],
        effects := (sendJSON { wire with conn := c.conn } readyPayload).2 }
    else
      { client := c1, started := [], sent := [], effects := [] }

/-- The method `Client.handleMessage`. The frame is decoded twice, as the code does:
into the map, and for an execute message into the struct. -/
def Client.handleMessage (c : Client) (frame : RawFrame) (io : TermIO) (wire : SendEnv) :
    Dispatch :=
  match frame with
  | Except.error _ => Dispatch.dropped c
  | Except.ok doc =>
    let msg := doc.toMap
    let msgType := msg.getString "type"
    if msgType = "execute" then
      match decodeExecuteMessage doc with
      | Except.error _ => Dispatch.dropped c
      | Except.ok execMsg => { client := c, started := [execMsg], sent := [], effects := [] }
    else if msgType = "terminal_open" ∨ msgType = "terminal_input" ∨
        msgType = "terminal_resize" ∨ msgType = "terminal_close" then
      c.handleTerminalMessage msg io wire
    else
      Dispatch.dropped c

/-! ## The heartbeat loop (`Service.Start`) with an explicit ticker

Times are absolute, in nanoseconds. The ticker is represented by the time at which
it fires next. A call of `sendHeartbeat` is recorded by the time at which it is
made and lasts for a given duration, taken to be shorter than the ticker's period. -/

/-- The call `time.NewTicker(d)` at time `now`: the first tick arrives `d` later;
a duration that is not positive makes the call panic. -/
def NewTicker (now d : Int) : Except String Int :=
  if d ≤ 0 then Except.error "non-positive interval for NewTicker" else Except.ok (now + d)

/-- The call `ticker.Reset(d)` at time `now`: the next tick arrives `d` later; a
duration that is not positive makes the call panic. -/
def tickerReset (now d : Int) : Except String Int :=
  if d ≤ 0 then Except.error "non-positive interval for Ticker.Reset" else Except.ok (now + d)

/-- The state of a running `Start`: the service, the time at which the ticker fires
next, and the times of the calls of `sendHeartbeat` so far. -/
structure Loop where
  svc : Service
  deadline : Int
  sent : List Int
deriving DecidableEq, Repr

/-- The method `Service.Start` up to its loop, entered at time `now`: the first
`sendHeartbeat` is made at once and lasts `dur`, then the ticker is created with the
stored interval. -/
def Service.Start (s : Service) (now dur : Int) : Except String Loop :=
  match NewTicker (now + dur) s.getInterval with
  | Except.error e => Except.error e
  | Except.ok deadline => Except.ok { svc := s, deadline := deadline, sent := [now] }

/-- One pass through `case <-ticker.C` of `Start`: the tick arrives at the deadline,
`sendHeartbeat` is made then and lasts `dur`, and the ticker is reset with the
interval stored at that moment. -/
def Loop.tick (l : Loop) (dur : Int) : Except String Loop :=
  match tickerReset (l.deadline + dur) l.svc.getInterval with
  | Except.error e => Except.error e
  | Except.ok deadline => Except.ok { l with deadline := deadline, sent := l.sent ++ [l.deadline] }

/-- A call of `UpdateInterval` from another task while the loop waits for its tick. -/
def Loop.update (l : Loop) (newInterval : Int) : Loop :=
  { l with svc := l.svc.UpdateInterval newInterval }

/-! ## Remote configuration (`applyRemoteConfig`, `cmd/agent/main.go`) -/

/-- The value of a non-empty string of decimal digits, read after `acc`. -/
def digitsValue : List Char → Nat → Option Nat
  | [], acc => some acc
  | c :: cs, acc => if c.isDigit then digitsValue cs (acc * 10 + (c.toNat - 48)) else none

/-- Go's `strconv.Atoi` on a 64-bit platform: an optional sign, then at least one
decimal digit and nothing else, with a value in the range of `int`. -/
def Atoi (s : String) : Option Int :=
  let signed (neg : Bool) (ds : List Char) : Option Int :=
    match ds with
    | [] => none
    | _ :: _ =>
      match digitsValue ds 0 with
      | none => none
      | some n =>
        let v : Int := if neg then -(n : Int) else (n : Int)
        if -9223372036854775808 ≤ v ∧ v ≤ 9223372036854775807 then some v else none
  match s.data with
  | '-' :: ds => signed true ds
  | '+' :: ds => signed false ds
  | ds => signed false ds

/-- One of the two blocks of `applyRemoteConfig`: if `key` is present with a value
that parses as a positive integer, `UpdateInterval` is called with that many
seconds. The second component lists the arguments of the calls made so far. -/
def applyIntervalKey (key : String) (cfgMap : List (String × String))
    (acc : Service × List Int) : Service × List Int :=
  match cfgMap.lookup key with
  | some v =>
    match Atoi v with
    | some seconds =>
      if seconds > 0 then
        (acc.1.UpdateInterval (secondsToDuration seconds), acc.2 ++ [secondsToDuration seconds])
      else acc
    | none => acc
  | none => acc

/-- The function `applyRemoteConfig`; `fetched` is what `httpClient.GetConfig`
returns. The result is the service afterwards and the arguments of the calls of
`UpdateInterval`, in order. -/
def applyRemoteConfig (hbService : Service) (fetched : Except String (List (String × String))) :
    Service × List Int :=
  match fetched with
  | Except.error _ => (hbService, [])
  | Except.ok cfgMap =>
    applyIntervalKey "agent.metrics.interval" cfgMap
      (applyIntervalKey "agent.heartbeat.interval" cfgMap (hbService, []))

/-! ## Observations on traces, and sample inputs -/

/-- The requests handed to `ReportJobResult` in a trace, in order. -/
def reportedResults (effects : List Effect) : List JobResultRequest :=
  effects.filterMap (fun e => match e with
    | Effect.httpReportJobResult req => some req
    | _ => none)

/-- The result messages written to the socket in a trace, in order. -/
def pushedResults (effects : List Effect) : List ResultMessage :=
  effects.filterMap (fun e => match e with
    | Effect.wsWrite (OutMsg.result m) => some m
    | _ => none)

/-- The execute message of a job that prints `hi` and exits with 3, without a timeout. -/
def jobHi : ExecuteMessage :=
  { msgType := "execute", JobID := "j1", TaskID := "t1", Script := "echo hi; exit 3", Timeout := 0 }

/-- An execute message with a timeout of five seconds. -/
def jobFive : ExecuteMessage :=
  { msgType := "execute", JobID := "j2", TaskID := "t2", Script := "sleep 60", Timeout := 5 }

/-- An execute message with a timeout field of -1. -/
def jobNegative : ExecuteMessage :=
  { msgType := "execute", JobID := "j3", TaskID := "t3", Script := "true", Timeout := -1 }

/-- An execute message whose timeout in nanoseconds no longer fits 64 bits. -/
def jobHuge : ExecuteMessage :=
  { msgType := "execute", JobID := "j4", TaskID := "t4", Script := "true", Timeout := 9223372037 }

/-- A send over a live connection that succeeds. -/
def liveEnv : SendEnv := { conn := some 1, marshalErr := none, writeErr := none }

/-- A world in which the script prints `hi` and exits with 3 and every push succeeds. -/
def worldHi : JobWorld :=
  { runner := fun _ _ => { lines := ["hi"], exitCode := 3, err := none },
    logEnv := fun _ => liveEnv,
    resultEnv := liveEnv }

/-- A send while the connection handle is nil. -/
def deadEnv : SendEnv := { conn := none, marshalErr := none, writeErr := none }

/-- A world as `worldHi`, but with the connection gone when the result is reported. -/
def worldDown : JobWorld :=
  { runner := fun _ _ => { lines := ["hi"], exitCode := 3, err := none },
    logEnv := fun _ => liveEnv,
    resultEnv := deadEnv }

/-- The invariant of the multiplexer: every pointer stored in the map refers to a
session object whose `ID` is the key it is stored under, and every session object
that is not closed is the one stored in the map under its `ID`. -/
def Manager.Inv (m : Manager) : Prop :=
  (∀ k p, m.sessions.lookup k = some p → ∃ s, m.heap[p]? = some s ∧ s.ID = k) ∧
  (∀ p s, m.heap[p]? = some s → s.closed = false → m.sessions.lookup s.ID = some p)

/-- The session object that a successful `NewSession id` returns. -/
def freshSession (id : String) : Session :=
  { ID := id, closed := false, cancelCalls := 0, ptmxCloses := 0, written := [],
    cols := 80, rows := 24 }

/-- The circumstances in which every operation on a pseudo-terminal succeeds. -/
def ioOk : TermIO := { startErr := none, ptyErr := none, outOfRange := fun _ => 0 }

/-- A manager holding one open session under the key `s1`. -/
def managerOne : Manager := (NewManager.Create "s1" none).1

/-- A manager holding under the key `s1` a session whose shell has exited. -/
def managerExited : Manager := managerOne.step (Event.processExit 0)

/-- A client with a live connection and one open session. -/
def clientOne : Client :=
  { ServerURL := "http://localhost:8080", AgentID := "agent-1", termManager := managerOne,
    conn := some 1 }

/-- A heartbeat service with the default interval of 30 seconds. -/
def serviceDefault : Service :=
  NewService { ServerURL := "http://localhost:8080" } "agent-1" 30

/-! ## Observations and sample inputs for the dispatcher, the log callback and the heartbeat -/

/-- What the push-then-fallback policy does for one streamed line, taken on its
own: the socket write of the push, if one is made, followed by one call of
`ReportJobLog` if the push failed. -/
def lineEffects (jobID : String) (env : SendEnv) (line : String) : List Effect :=
  (sendJSON env (OutMsg.log { msgType := "log", JobID := jobID, Log := line })).2 ++
    (if (sendJSON env (OutMsg.log { msgType := "log", JobID := jobID, Log := line })).1.isSome
      then [Effect.httpReportJobLog jobID line] else [])

/-- The effects of the policy applied to each line in turn, the `i`-th line under
`logEnv i`, each line on its own. -/
def perLineEffects (jobID : String) (logEnv : Nat → SendEnv) : Nat → List String → List Effect
  | _, [] => []
  | i, line :: rest => lineEffects jobID (logEnv i) line ++ perLineEffects jobID logEnv (i + 1) rest

/-- The calls of `ReportJobLog` in a trace, in order. -/
def reportedLogs (effects : List Effect) : List (String × String) :=
  effects.filterMap (fun e => match e with
    | Effect.httpReportJobLog jobID line => some (jobID, line)
    | _ => none)

/-- The log messages written to the socket in a trace, in order. -/
def pushedLogs (effects : List Effect) : List LogMessage :=
  effects.filterMap (fun e => match e with
    | Effect.wsWrite (OutMsg.log m) => some m
    | _ => none)

/-- A send whose write to the socket fails. -/
def brokenEnv : SendEnv := { conn := some 1, marshalErr := none, writeErr := some "broken pipe" }

/-- A world in which the script prints two lines and exits with 0; the push of the
first line fails, every other push succeeds. -/
def worldFlaky : JobWorld :=
  { runner := fun _ _ => { lines := ["one", "two"], exitCode := 0, err := none },
    logEnv := fun i => if i = 0 then brokenEnv else liveEnv,
    resultEnv := liveEnv }

/-- The frame `{"type":"execute","script":"echo hi"}`, which has no job id. -/
def frameNoJobId : JDoc := [("type", JVal.str "execute"), ("script", JVal.str "echo hi")]

/-- The frame `{"type":"terminal_input","data":"ls"}`, which has no session id. -/
def frameNoSessionId : JDoc := [("type", JVal.str "terminal_input"), ("data", JVal.str "ls")]

/-- The frame `{"type":"execute","JOBID":"j1","script":"echo hi"}`, whose job id is
written under a key in capital letters. -/
def frameCapitalKey : JDoc :=
  [("type", JVal.str "execute"), ("JOBID", JVal.str "j1"), ("script", JVal.str "echo hi")]

/-- The frame `{"type":"execute","jobId":"j1","timeout":5.0}`, whose timeout is not
written as an integer. -/
def frameFractionalTimeout : JDoc :=
  [("type", JVal.str "execute"), ("jobId", JVal.str "j1"), ("timeout", JVal.frac 5)]

/-- The loop of the default service, started at time 0 with its 30-second tick pending. -/
def loopDefault : Loop := { svc := serviceDefault, deadline := 30 * Second, sent := [0] }

/-- A service built from a configured interval of 0 seconds. -/
def serviceZero : Service := NewService { ServerURL := "http://localhost:8080" } "agent-1" 0

/-- A fetched configuration with a heartbeat interval of 10 and a metrics interval of 60. -/
def configBoth : List (String × String) :=
  [("agent.heartbeat.interval", "10"), ("agent.metrics.interval", "60")]

/-- A fetched configuration whose metrics interval does not fit a duration. -/
def configHuge : List (String × String) :=
  [("agent.heartbeat.interval", "10"), ("agent.metrics.interval", "9223372037")]

/-- Whether an event is one that the agent itself brings about: a message handed to
`HandleMessage`, `CloseAll` when the connection is torn down, or the exit of a shell.
`Create` and `Close` are called by the agent only from within `HandleMessage`. -/
def Event.byAgent : Event → Bool
  | Event.message _ _ => true
  | Event.closeAll => true
  | Event.processExit _ => true
  | Event.create _ _ => false
  | Event.close _ => false

/-- The events of an agent that has received one `terminal_open` for `s1`. -/
def eventsOpen : List Event := [Event.message (terminalFrame "terminal_open" "s1" []) ioOk]

/-- Whether a JSON value is of the wrong type for a field of `ExecuteMessage`:
`null` never is, a string field wants a string, and the `int` field wants a number
written as an integer literal within 64 bits. -/
def wrongType (f : ExecField) (v : JVal) : Bool :=
  match f, v with
  | _, JVal.null => false
  | ExecField.timeout, JVal.num n =>
    !(decide (-9223372036854775808 ≤ n ∧ n ≤ 9223372036854775807))
  | ExecField.timeout, _ => true
  | _, JVal.str _ => false
  | _, _ => true

/-! ## The job executor -/

theorem streamLog_lines (jobID : String) (logEnv : Nat → SendEnv) (lines : List String) :
    ∀ (i : Nat) (acc : List String × List Effect),
      (streamLog jobID logEnv i lines acc).1 = acc.1 ++ lines := by
  induction lines with
  | nil => intro i acc; simp [streamLog]
  | cons l rest ih =>
    intro i acc
    have h1 : (onLog jobID (logEnv i) l acc).1 = acc.1 ++ [l] := by
      unfold onLog
      dsimp only
      split <;> rfl
    simp [streamLog, ih, h1]

theorem sendJSON_log_effects (env : SendEnv) (m : LogMessage) :
    reportedResults (sendJSON env (OutMsg.log m)).2 = [] ∧
    pushedResults (sendJSON env (OutMsg.log m)).2 = [] := by
  unfold sendJSON
  cases env.conn <;> cases env.marshalErr <;> simp [reportedResults, pushedResults]

theorem onLog_results (jobID : String) (env : SendEnv) (line : String)
    (acc : List String × List Effect) :
    reportedResults (onLog jobID env line acc).2 = reportedResults acc.2 ∧
    pushedResults (onLog jobID env line acc).2 = pushedResults acc.2 := by
  have h := sendJSON_log_effects env { msgType := "log", JobID := jobID, Log := line }
  unfold reportedResults pushedResults at h
  unfold onLog
  dsimp only
  split <;> simp [reportedResults, pushedResults, List.filterMap_append, h.1, h.2]

theorem streamLog_results (jobID : String) (logEnv : Nat → SendEnv) (lines : List String) :
    ∀ (i : Nat) (acc : List String × List Effect),
      reportedResults (streamLog jobID logEnv i lines acc).2 = reportedResults acc.2 ∧
      pushedResults (streamLog jobID logEnv i lines acc).2 = pushedResults acc.2 := by
  induction lines with
  | nil => intro i acc; simp [streamLog]
  | cons l rest ih =>
    intro i acc
    have h := onLog_results jobID (logEnv i) l acc
    have h2 := ih (i + 1) (onLog jobID (logEnv i) l acc)
    simp only [streamLog]
    exact ⟨h2.1.trans h.1, h2.2.trans h.2⟩

theorem executeJob_result (agentID : String) (msg : ExecuteMessage) (w : JobWorld) :
    (executeJob agentID msg w).result =
      buildResult msg.JobID (w.runner (jobTimeout msg.Timeout) msg.Script).lines
        (w.runner (jobTimeout msg.Timeout) msg.Script).exitCode
        (w.runner (jobTimeout msg.Timeout) msg.Script).err := by
  simp [executeJob, streamLog_lines]

/-- C1: the status reported by `executeJob` is 2 exactly when the runner returned no
error and exit code 0, and it is 3 in every other case. -/
theorem executeJob_status (agentID : String) (msg : ExecuteMessage) (w : JobWorld) :
    ((executeJob agentID msg w).result.Status = 2 ↔
      (w.runner (jobTimeout msg.Timeout) msg.Script).err = none ∧
      (w.runner (jobTimeout msg.Timeout) msg.Script).exitCode = 0) ∧
    (¬ ((w.runner (jobTimeout msg.Timeout) msg.Script).err = none ∧
        (w.runner (jobTimeout msg.Timeout) msg.Script).exitCode = 0) →
      (executeJob agentID msg w).result.Status = 3) := by
  rw [executeJob_result]
  generalize w.runner (jobTimeout msg.Timeout) msg.Script = out
  rcases out with ⟨lines, exitCode, err⟩
  cases err with
  | some e => simp [buildResult, statusFailed]
  | none =>
    by_cases h : exitCode = 0
    · simp [buildResult, statusSuccess, h]
    · simp [buildResult, statusFailed, h]

/-- C1 on a run that prints `hi` and exits with 3: the status is 3. -/
theorem executeJob_status_witness : (executeJob "agent-1" jobHi worldHi).result.Status = 3 :=
  (executeJob_status "agent-1" jobHi worldHi).2 (by decide)

theorem intercalate_ne_empty (sep : String) (lines : List String)
    (h : String.intercalate sep lines ≠ "") : lines ≠ [] := by
  intro hl
  subst hl
  exact h rfl

/-- C2: on failure the output of the result is the joined lines followed by the
failure text, with a newline in between exactly when the joined text is not empty
(so only when a line was captured); on success it is the joined lines. -/
theorem executeJob_output (agentID : String) (msg : ExecuteMessage) (w : JobWorld) :
    (∀ e, (w.runner (jobTimeout msg.Timeout) msg.Script).err = some e →
      (executeJob agentID msg w).result.Output =
        String.intercalate "\n" (w.runner (jobTimeout msg.Timeout) msg.Script).lines ++
        (if String.intercalate "\n" (w.runner (jobTimeout msg.Timeout) msg.Script).lines = ""
          then "" else "\n") ++ e) ∧
    ((w.runner (jobTimeout msg.Timeout) msg.Script).err = none →
      (w.runner (jobTimeout msg.Timeout) msg.Script).exitCode ≠ 0 →
      (executeJob agentID msg w).result.Output =
        String.intercalate "\n" (w.runner (jobTimeout msg.Timeout) msg.Script).lines ++
        (if String.intercalate "\n" (w.runner (jobTimeout msg.Timeout) msg.Script).lines = ""
          then "" else "\n") ++
        ("exit code: " ++ toString (w.runner (jobTimeout msg.Timeout) msg.Script).exitCode)) ∧
    ((w.runner (jobTimeout msg.Timeout) msg.Script).err = none →
      (w.runner (jobTimeout msg.Timeout) msg.Script).exitCode = 0 →
      (executeJob agentID msg w).result.Output =
        String.intercalate "\n" (w.runner (jobTimeout msg.Timeout) msg.Script).lines) ∧
    ((if String.intercalate "\n" (w.runner (jobTimeout msg.Timeout) msg.Script).lines = ""
        then "" else "\n") = "\n" →
      (w.runner (jobTimeout msg.Timeout) msg.Script).lines ≠ []) ∧
    (msg.JobID = "j1" →
      w.runner (jobTimeout msg.Timeout) msg.Script = { lines := ["hi"], exitCode := 3, err := none } →
      (executeJob agentID msg w).result =
        { msgType := "result", JobID := "j1", Status := 3, ExitCode := 3,
          Output := "hi\nexit code: 3" } ∧
      "hi\n".data <+: (executeJob agentID msg w).result.Output.data ∧
      '3' ∈ (executeJob agentID msg w).result.Output.data) := by
  rw [executeJob_result]
  generalize w.runner (jobTimeout msg.Timeout) msg.Script = out
  rcases out with ⟨lines, exitCode, err⟩
  refine ⟨?_, ?_, ?_, ?_, ?_⟩
  · intro e he
    simp only at he
    subst he
    by_cases hj : String.intercalate "\n" lines = ""
    · simp [buildResult, hj]
    · simp [buildResult, hj]
  · intro he hx
    simp only at he hx
    subst he
    by_cases hj : String.intercalate "\n" lines = ""
    · simp [buildResult, hj, hx]
    · simp [buildResult, hj, hx, String.append_assoc]
      rfl
  · intro he hx
    simp only at he hx
    subst he
    simp [buildResult, hx]
  · intro hs
    apply intercalate_ne_empty "\n"
    intro hj
    simp only at hs hj
    rw [if_pos hj] at hs
    exact absurd hs (by decide)
  · intro hj ho
    injection ho with h1 h2 h3
    subst h1 h2 h3
    rw [hj]
    decide

/-- C2, at the scenario of the specification: the script prints `hi` and exits with 3. -/
theorem executeJob_output_witness :
    (executeJob "agent-1" jobHi worldHi).result =
      { msgType := "result", JobID := "j1", Status := 3, ExitCode := 3,
        Output := "hi\nexit code: 3" } ∧
    "hi\n".data <+: (executeJob "agent-1" jobHi worldHi).result.Output.data ∧
    '3' ∈ (executeJob "agent-1" jobHi worldHi).result.Output.data :=
  (executeJob_output "agent-1" jobHi worldHi).2.2.2.2 rfl rfl

theorem wrap64_of_range (x : Int) (hlo : -9223372036854775808 ≤ x)
    (hhi : x < 9223372036854775808) : wrap64 x = x := by
  unfold wrap64
  have h63 : (2 : Int) ^ 63 = 9223372036854775808 := by norm_num
  have h64 : (2 : Int) ^ 64 = 18446744073709551616 := by norm_num
  rw [h63, h64]
  omega

/-- C3, refuted as stated: for the timeout field -1 the duration handed to the
deadline is minus one second, not the default of ten minutes; so it is not true that
every timeout field that is not positive gives the default. (For the positive
timeout field 9223372037 the product with `time.Second` leaves the 64-bit range and
the duration is negative as well.) -/
theorem executeJob_timeout_counterexample :
    (executeJob "agent-1" jobNegative worldHi).timeout = -1 * Second ∧
    (executeJob "agent-1" jobNegative worldHi).timeout ≠ 10 * Minute ∧
    (executeJob "agent-1" jobHuge worldHi).timeout = -9223372036709551616 ∧
    ¬ (∀ (agentID : String) (msg : ExecuteMessage) (w : JobWorld),
        (executeJob agentID msg w).timeout =
          if msg.Timeout > 0 then msg.Timeout * Second else 10 * Minute) := by
  refine ⟨by decide, by decide, by decide, ?_⟩
  intro h
  exact absurd (h "agent-1" jobNegative worldHi) (by decide)

/-- C3, amended: for a timeout field `t` of at most 9223372036 in absolute value
the duration that `executeJob` hands to the deadline is `t` seconds when `t` is not
zero (so also when `t` is negative) and ten minutes, 600 seconds, when `t` is zero. -/
theorem executeJob_timeout (agentID : String) (msg : ExecuteMessage) (w : JobWorld)
    (hlo : -9223372036 ≤ msg.Timeout) (hhi : msg.Timeout ≤ 9223372036) :
    (executeJob agentID msg w).timeout =
      (if msg.Timeout = 0 then 600 * Second else msg.Timeout * Second) ∧
    (0 < msg.Timeout → (executeJob agentID msg w).timeout = msg.Timeout * Second) ∧
    (msg.Timeout < 0 → (executeJob agentID msg w).timeout = msg.Timeout * Second) := by
  have key : jobTimeout msg.Timeout =
      (if msg.Timeout = 0 then 600 * Second else msg.Timeout * Second) := by
    unfold jobTimeout secondsToDuration
    rw [wrap64_of_range msg.Timeout (by omega) (by omega),
      wrap64_of_range (msg.Timeout * Second) (by unfold Second; omega) (by unfold Second; omega)]
    by_cases h0 : msg.Timeout = 0
    · rw [h0]
      decide
    · have hne : msg.Timeout * Second ≠ 0 := by unfold Second; omega
      simp only [hne, h0, if_false]
  have ht : (executeJob agentID msg w).timeout = jobTimeout msg.Timeout := rfl
  rw [ht, key]
  refine ⟨rfl, ?_, ?_⟩
  · intro h
    rw [if_neg (by omega)]
  · intro h
    rw [if_neg (by omega)]

/-- C3 at a timeout of five seconds. -/
theorem executeJob_timeout_witness :
    (executeJob "agent-1" jobFive worldHi).timeout = jobFive.Timeout * Second :=
  (executeJob_timeout "agent-1" jobFive worldHi (by decide) (by decide)).2.1 (by decide)

theorem executeJob_pushError (agentID : String) (msg : ExecuteMessage) (w : JobWorld) :
    (executeJob agentID msg w).pushError =
      (sendJSON w.resultEnv (OutMsg.result (executeJob agentID msg w).result)).1 := rfl

theorem executeJob_effects (agentID : String) (msg : ExecuteMessage) (w : JobWorld) :
    (executeJob agentID msg w).effects =
      (streamLog msg.JobID w.logEnv 0 (w.runner (jobTimeout msg.Timeout) msg.Script).lines
        ([], [])).2 ++
      (sendJSON w.resultEnv (OutMsg.result (executeJob agentID msg w).result)).2 ++
      (match (executeJob agentID msg w).pushError with
        | some _ =>
          [Effect.httpReportJobResult
            { JobID := msg.JobID, AgentID := agentID,
              Status := (executeJob agentID msg w).result.Status,
              ExitCode := (executeJob agentID msg w).result.ExitCode,
              Output := (executeJob agentID msg w).result.Output }]
        | none => []) := rfl

/-- C4: when the push of the result fails (no connection handle, an encoding
error, or a failed write) the plain-HTTP `ReportJobResult` is called exactly once,
with the job id, status, exit code and output of the result message and the
client's agent id; when the push succeeds it is not called. Without a connection
handle the error is "no connection" and nothing is written to the socket. -/
theorem executeJob_fallback (agentID : String) (msg : ExecuteMessage) (w : JobWorld) :
    ((executeJob agentID msg w).pushError = none ↔
      w.resultEnv.conn ≠ none ∧ w.resultEnv.marshalErr = none ∧ w.resultEnv.writeErr = none) ∧
    ((executeJob agentID msg w).pushError ≠ none →
      reportedResults (executeJob agentID msg w).effects =
        [{ JobID := (executeJob agentID msg w).result.JobID, AgentID := agentID,
           Status := (executeJob agentID msg w).result.Status,
           ExitCode := (executeJob agentID msg w).result.ExitCode,
           Output := (executeJob agentID msg w).result.Output }]) ∧
    ((executeJob agentID msg w).pushError = none →
      reportedResults (executeJob agentID msg w).effects = [] ∧
      pushedResults (executeJob agentID msg w).effects = [(executeJob agentID msg w).result]) ∧
    (w.resultEnv.conn = none →
      (executeJob agentID msg w).pushError = some "no connection" ∧
      pushedResults (executeJob agentID msg w).effects = []) ∧
    (executeJob agentID msg w).result.JobID = msg.JobID := by
  have hJ : (executeJob agentID msg w).result.JobID = msg.JobID := by
    rw [executeJob_result]
    unfold buildResult
    split
    · rfl
    · split <;> rfl
  have hS := streamLog_results msg.JobID w.logEnv
    (w.runner (jobTimeout msg.Timeout) msg.Script).lines 0 ([], [])
  have hE := executeJob_effects agentID msg w
  have hP := executeJob_pushError agentID msg w
  generalize (executeJob agentID msg w).result = r at hE hP hJ ⊢
  generalize (executeJob agentID msg w).pushError = pe at hE hP ⊢
  generalize (executeJob agentID msg w).effects = eff at hE ⊢
  generalize (streamLog msg.JobID w.logEnv 0
    (w.runner (jobTimeout msg.Timeout) msg.Script).lines ([], [])).2 = logEff at hE hS
  subst hE
  rcases hS with ⟨hS1, hS2⟩
  have hS1' : reportedResults logEff = [] := hS1
  have hS2' : pushedResults logEff = [] := hS2
  unfold reportedResults at hS1' ⊢
  unfold pushedResults at hS2' ⊢
  rcases hw : w.resultEnv with ⟨conn, me, we⟩
  rw [hw] at hP
  cases conn with
  | none =>
    simp [sendJSON] at hP
    subst hP
    simp [sendJSON, List.filterMap_append, hS1', hS2', hJ]
  | some cn =>
    cases me with
    | some e =>
      simp [sendJSON] at hP
      subst hP
      simp [sendJSON, List.filterMap_append, hS1', hS2', hJ]
    | none =>
      cases we with
      | some e =>
        simp [sendJSON] at hP
        subst hP
        simp [sendJSON, List.filterMap_append, hS1', hS2', hJ]
      | none =>
        simp [sendJSON] at hP
        subst hP
        simp [sendJSON, List.filterMap_append, hS1', hS2', hJ]

/-- C4 with the connection handle nil at report time: one fallback call carrying the result. -/
theorem executeJob_fallback_witness :
    reportedResults (executeJob "agent-1" jobHi worldDown).effects =
      [{ JobID := "j1", AgentID := "agent-1", Status := 3, ExitCode := 3,
         Output := "hi\nexit code: 3" }] :=
  (executeJob_fallback "agent-1" jobHi worldDown).2.1 (by decide)

/-! ## Address derivation -/

theorem replaceFirst_at_start (c : Char) (old new r : List Char) :
    replaceFirst (c :: old) new ((c :: old) ++ r) = new ++ r := by
  have h : (c :: old).isPrefixOf (c :: (old ++ r)) = true := by
    rw [List.isPrefixOf_iff_prefix]
    exact List.prefix_append (c :: old) r
  rw [List.cons_append]
  unfold replaceFirst
  rw [if_pos h]
  simp

theorem replaceFirst_absent (c : Char) (old new : List Char) :
    ∀ s : List Char, (s.tails.any (fun t => (c :: old).isPrefixOf t)) = false →
      replaceFirst (c :: old) new s = s := by
  intro s
  induction s with
  | nil => intro _; simp [replaceFirst]
  | cons d s ih =>
    intro h
    simp only [List.tails, List.any_cons, Bool.or_eq_false_iff] at h
    simp only [replaceFirst, h.1]
    rw [ih h.2]
    simp

theorem stringsReplaceOnce_data (s old new : String) :
    (stringsReplaceOnce s old new).data = replaceFirst old.data new.data s.data := rfl

theorem replace_https_in_http (new r : List Char) :
    replaceFirst ['h', 't', 't', 'p', 's', ':', '/', '/'] new
        (['h', 't', 't', 'p', ':', '/', '/'] ++ r) =
      ['h', 't', 't', 'p', ':', '/', '/'] ++
        replaceFirst ['h', 't', 't', 'p', 's', ':', '/', '/'] new r := by
  simp [replaceFirst, List.isPrefixOf]

theorem replace_http_in_wss (new r : List Char) :
    replaceFirst ['h', 't', 't', 'p', ':', '/', '/'] new (['w', 's', 's', ':', '/', '/'] ++ r) =
      ['w', 's', 's', ':', '/', '/'] ++ replaceFirst ['h', 't', 't', 'p', ':', '/', '/'] new r := by
  simp [replaceFirst, List.isPrefixOf]

theorem buildWSURL_http (r a : String) :
    buildWSURL ("http://" ++ r) a =
      "ws://" ++ stringsReplaceOnce r "https://" "wss://" ++ "/ws/agent/" ++ a := by
  apply String.ext
  simp only [buildWSURL, String.data_append, stringsReplaceOnce_data]
  rw [replace_https_in_http, replaceFirst_at_start]

theorem buildWSURL_https (r a : String) :
    buildWSURL ("https://" ++ r) a =
      "wss://" ++ stringsReplaceOnce r "http://" "ws://" ++ "/ws/agent/" ++ a := by
  apply String.ext
  simp only [buildWSURL, String.data_append, stringsReplaceOnce_data]
  rw [replaceFirst_at_start, replace_http_in_wss]

theorem stringsReplaceOnce_absent (s old new : String) (hne : old ≠ "")
    (h : stringsContains s old = false) : stringsReplaceOnce s old new = s := by
  apply String.ext
  rw [stringsReplaceOnce_data]
  rcases old with ⟨od⟩
  cases od with
  | nil => exact absurd rfl hne
  | cons c o => exact replaceFirst_absent c o new.data s.data h

/-- C5, refuted as stated: in a server URL that begins with `https://` and contains
`http://` further on, that later occurrence is rewritten as well, so the rest of the
address is not left unchanged. -/
theorem buildWSURL_counterexample :
    buildWSURL ("https://" ++ "gw.example.com/http://inner") "ag_1" =
      "wss://gw.example.com/ws://inner/ws/agent/ag_1" ∧
    buildWSURL ("https://" ++ "gw.example.com/http://inner") "ag_1" ≠
      "wss://" ++ "gw.example.com/http://inner" ++ "/ws/agent/" ++ "ag_1" ∧
    ¬ (∀ r a : String,
        buildWSURL ("https://" ++ r) a = "wss://" ++ r ++ "/ws/agent/" ++ a) := by
  refine ⟨by decide, by decide, ?_⟩
  intro h
  exact absurd (h "gw.example.com/http://inner" "ag_1") (by decide)

/-- C5, amended: for a server URL `"http://" ++ r` whose rest `r` does not contain
`https://` the result is `"ws://" ++ r ++ "/ws/agent/" ++ a`, and for a server URL
`"https://" ++ r` whose rest does not contain `http://` it is
`"wss://" ++ r ++ "/ws/agent/" ++ a`; in general the leading scheme is rewritten,
the first occurrence of the other scheme inside `r` is rewritten too, and the agent
id is appended unchanged. -/
theorem buildWSURL_scheme (r a : String) :
    (stringsContains r "https://" = false →
      buildWSURL ("http://" ++ r) a = "ws://" ++ r ++ "/ws/agent/" ++ a) ∧
    (stringsContains r "http://" = false →
      buildWSURL ("https://" ++ r) a = "wss://" ++ r ++ "/ws/agent/" ++ a) ∧
    buildWSURL ("http://" ++ r) a =
      "ws://" ++ stringsReplaceOnce r "https://" "wss://" ++ "/ws/agent/" ++ a ∧
    buildWSURL ("https://" ++ r) a =
      "wss://" ++ stringsReplaceOnce r "http://" "ws://" ++ "/ws/agent/" ++ a := by
  refine ⟨?_, ?_, buildWSURL_http r a, buildWSURL_https r a⟩
  · intro h
    rw [buildWSURL_http, stringsReplaceOnce_absent r "https://" "wss://" (by decide) h]
  · intro h
    rw [buildWSURL_https, stringsReplaceOnce_absent r "http://" "ws://" (by decide) h]

/-- C5 at the default server address of the agent's configuration. -/
theorem buildWSURL_scheme_witness :
    buildWSURL ("http://" ++ "localhost:8080") "ag_host" =
      "ws://" ++ "localhost:8080" ++ "/ws/agent/" ++ "ag_host" :=
  (buildWSURL_scheme "localhost:8080" "ag_host").1 (by decide)

/-! ## The session multiplexer -/

theorem Session.Close_closed (s : Session) : s.Close.closed = true := by
  unfold Session.Close
  split
  · assumption
  · rfl

theorem Session.Close_ID (s : Session) : s.Close.ID = s.ID := by
  unfold Session.Close
  split <;> rfl

theorem Session.Close_of_closed (s : Session) (h : s.closed = true) : s.Close = s := by
  unfold Session.Close
  rw [if_pos h]

theorem length_updateAt (heap : List Session) (p : Ptr) (f : Session → Session) :
    (updateAt heap p f).length = heap.length := by
  unfold updateAt
  split <;> simp

theorem getElem?_updateAt_self (heap : List Session) (p : Ptr) (f : Session → Session) :
    (updateAt heap p f)[p]? = (heap[p]?).map f := by
  unfold updateAt
  split
  · next s hs =>
    have hlt : p < heap.length := (List.getElem?_eq_some.mp hs).1
    rw [List.getElem?_set_self hlt, hs]
    rfl
  · next hn => rw [hn]; rfl

theorem getElem?_updateAt_ne (heap : List Session) (p q : Ptr) (f : Session → Session)
    (h : q ≠ p) : (updateAt heap p f)[q]? = heap[q]? := by
  unfold updateAt
  split
  · rw [List.getElem?_set_ne (Ne.symm h)]
  · rfl

theorem set_getElem?_same (heap : List Session) (p : Ptr) (s : Session)
    (h : heap[p]? = some s) : heap.set p s = heap := by
  apply List.ext_getElem?
  intro q
  by_cases hq : q = p
  · subst hq
    rw [List.getElem?_set_self (List.getElem?_eq_some.mp h).1, h]
  · rw [List.getElem?_set_ne (Ne.symm hq)]

theorem updateAt_Close_of_closed (heap : List Session) (p : Ptr) (s : Session)
    (h : heap[p]? = some s) (hc : s.closed = true) : updateAt heap p Session.Close = heap := by
  unfold updateAt
  rw [h]
  simp only
  rw [Session.Close_of_closed s hc]
  exact set_getElem?_same heap p s h

theorem Manager.Close_lookup (m : Manager) (k : String) : (m.Close k).sessions.lookup k = none := by
  unfold Manager.Close
  split
  · exact AList.lookup_erase k m.sessions
  · assumption

theorem Manager.Close_absent (m : Manager) (k : String) (h : m.sessions.lookup k = none) :
    m.Close k = m := by
  unfold Manager.Close
  rw [h]

theorem Manager.Close_present (m : Manager) (k : String) (p : Ptr)
    (h : m.sessions.lookup k = some p) :
    m.Close k = { heap := updateAt m.heap p Session.Close, sessions := m.sessions.erase k } := by
  unfold Manager.Close
  rw [h]

/-- C8: closing is idempotent and does nothing where there is nothing to close:
`Manager.Close` on a key absent from the map returns the state as it was, applying
it twice gives the state of applying it once, and `Session.Close` on a session
whose closed flag is set returns the session as it was, so that neither `cancel`
nor the closing of the pseudo-terminal handle is called again. -/
theorem close_idempotent (m : Manager) (k : String) (s : Session) :
    (m.sessions.lookup k = none → m.Close k = m) ∧
    (m.Close k).Close k = m.Close k ∧
    (s.closed = true → s.Close = s ∧ s.Close.cancelCalls = s.cancelCalls ∧
      s.Close.ptmxCloses = s.ptmxCloses) ∧
    s.Close.Close = s.Close := by
  refine ⟨Manager.Close_absent m k, Manager.Close_absent _ k (Manager.Close_lookup m k), ?_,
    Session.Close_of_closed _ (Session.Close_closed s)⟩
  intro h
  rw [Session.Close_of_closed s h]
  exact ⟨rfl, rfl, rfl⟩

/-- C8 on a manager without sessions and on a session that is already closed. -/
theorem close_idempotent_witness :
    NewManager.Close "s1" = NewManager ∧
    ((freshSession "s1").Close.Close = (freshSession "s1").Close ∧
      (freshSession "s1").Close.Close.cancelCalls = (freshSession "s1").Close.cancelCalls ∧
      (freshSession "s1").Close.Close.ptmxCloses = (freshSession "s1").Close.ptmxCloses) :=
  ⟨(close_idempotent NewManager "s1" (freshSession "s1").Close).1 (by decide),
   (close_idempotent NewManager "s1" (freshSession "s1").Close).2.2.1 (by decide)⟩

theorem HandleMessage_empty_key (m : Manager) (msg : JObj) (io : TermIO)
    (hk : msg.getString "sessionId" = "") :
    m.HandleMessage (Except.ok msg) io = (m, some "missing sessionId") := by
  simp only [Manager.HandleMessage, hk, if_true]

theorem HandleMessage_input (m : Manager) (msg : JObj) (io : TermIO)
    (hk : msg.getString "sessionId" ≠ "") (ht : msg.getString "type" = "terminal_input") :
    m.HandleMessage (Except.ok msg) io =
      match m.Get (msg.getString "sessionId") with
      | none => (m, some ("session not found: " ++ msg.getString "sessionId"))
      | some session => callAt m session (fun s => s.Write (msg.getString "data") io.ptyErr) := by
  simp only [Manager.HandleMessage, hk, ht, if_false]
  rfl

theorem HandleMessage_resize (m : Manager) (msg : JObj) (io : TermIO)
    (hk : msg.getString "sessionId" ≠ "") (ht : msg.getString "type" = "terminal_resize") :
    m.HandleMessage (Except.ok msg) io =
      match m.Get (msg.getString "sessionId") with
      | none => (m, some ("session not found: " ++ msg.getString "sessionId"))
      | some session =>
        callAt m session (fun s => s.Resize (toUint16 io.outOfRange (msg.getNumber "cols"))
          (toUint16 io.outOfRange (msg.getNumber "rows")) io.ptyErr) := by
  simp only [Manager.HandleMessage, hk, ht, if_false]
  rfl

theorem callAt_closed (m : Manager) (p : Ptr) (s : Session)
    (f : Session → Session × Option String) (h : m.heap[p]? = some s)
    (hf : f s = (s, some "session closed")) : callAt m p f = (m, some "session closed") := by
  unfold callAt
  rw [h]
  simp only [hf]
  rw [set_getElem?_same m.heap p s h]

theorem HandleMessage_unknown_or_closed (m : Manager) (msg : JObj) (io : TermIO)
    (hk : msg.getString "sessionId" ≠ "")
    (ht : msg.getString "type" = "terminal_input" ∨ msg.getString "type" = "terminal_resize") :
    (m.sessions.lookup (msg.getString "sessionId") = none →
      m.HandleMessage (Except.ok msg) io =
        (m, some ("session not found: " ++ msg.getString "sessionId"))) ∧
    (∀ p s, m.sessions.lookup (msg.getString "sessionId") = some p → m.heap[p]? = some s →
      s.closed = true → m.HandleMessage (Except.ok msg) io = (m, some "session closed")) := by
  constructor
  · intro hl
    rcases ht with ht | ht
    · rw [HandleMessage_input m msg io hk ht, Manager.Get, hl]
    · rw [HandleMessage_resize m msg io hk ht, Manager.Get, hl]
  · intro p s hl hp hc
    rcases ht with ht | ht
    · rw [HandleMessage_input m msg io hk ht, Manager.Get, hl]
      exact callAt_closed m p s _ hp (by simp [Session.Write, hc])
    · rw [HandleMessage_resize m msg io hk ht, Manager.Get, hl]
      exact callAt_closed m p s _ hp (by simp [Session.Resize, hc])

theorem updateAt_Close_get (heap : List Session) (p q : Ptr) (s' : Session)
    (h : (updateAt heap p Session.Close)[q]? = some s') :
    ∃ s, heap[q]? = some s ∧ s'.ID = s.ID ∧ (s'.closed = false → q ≠ p ∧ s' = s) := by
  by_cases hq : q = p
  · subst hq
    rw [getElem?_updateAt_self] at h
    cases hs : heap[q]? with
    | none => rw [hs] at h; exact absurd h (by simp)
    | some s =>
      rw [hs] at h
      simp only [Option.map_some', Option.some.injEq] at h
      subst h
      refine ⟨s, rfl, Session.Close_ID s, ?_⟩
      intro hc
      rw [Session.Close_closed] at hc
      exact absurd hc (by decide)
  · rw [getElem?_updateAt_ne heap p q _ hq] at h
    exact ⟨s', h, rfl, fun _ => ⟨hq, rfl⟩⟩

theorem updateAt_Close_keeps (heap : List Session) (p q : Ptr) (s : Session)
    (h : heap[q]? = some s) :
    ∃ s', (updateAt heap p Session.Close)[q]? = some s' ∧ s'.ID = s.ID ∧
      (s.closed = true → s' = s) ∧ (q = p → s'.closed = true) := by
  by_cases hq : q = p
  · subst hq
    refine ⟨s.Close, ?_, Session.Close_ID s, Session.Close_of_closed s, fun _ => Session.Close_closed s⟩
    rw [getElem?_updateAt_self, h]
    rfl
  · refine ⟨s, ?_, rfl, fun _ => rfl, fun h' => absurd h' hq⟩
    rw [getElem?_updateAt_ne heap p q _ hq, h]

theorem Manager.inv_new : NewManager.Inv := by
  constructor
  · intro k p h
    simp [NewManager] at h
  · intro p s h
    simp [NewManager] at h

theorem Manager.inv_closeEntry (m : Manager) (k : String) (p : Ptr) (hi : m.Inv)
    (hl : m.sessions.lookup k = some p) :
    Manager.Inv { heap := updateAt m.heap p Session.Close, sessions := m.sessions.erase k } := by
  rcases hi with ⟨h1, h2⟩
  constructor
  · intro k' p' hk'
    simp only at hk' ⊢
    have hne : k' ≠ k := by
      intro he
      rw [he, AList.lookup_erase] at hk'
      exact absurd hk' (by simp)
    rw [AList.lookup_erase_ne hne] at hk'
    rcases h1 k' p' hk' with ⟨s, hs, hid⟩
    rcases updateAt_Close_keeps m.heap p p' s hs with ⟨s', hs', hid', _⟩
    exact ⟨s', hs', hid'.trans hid⟩
  · intro q s' hq hc
    simp only at hq ⊢
    rcases updateAt_Close_get m.heap p q s' hq with ⟨s, hs, hid, hopen⟩
    rcases hopen hc with ⟨hqp, hss⟩
    subst hss
    have hlq := h2 q s' hs hc
    have hne : s'.ID ≠ k := by
      intro he
      rw [he, hl] at hlq
      exact hqp (Option.some.inj hlq).symm
    rw [AList.lookup_erase_ne hne]
    exact hlq

theorem Manager.inv_Close (m : Manager) (k : String) (hi : m.Inv) : (m.Close k).Inv := by
  cases hl : m.sessions.lookup k with
  | none => rw [Manager.Close_absent m k hl]; exact hi
  | some p => rw [Manager.Close_present m k p hl]; exact Manager.inv_closeEntry m k p hi hl

theorem Manager.Create_eq (m : Manager) (id : String) (startErr : Option String) :
    m.Create id startErr =
      match startErr with
      | some e => (m.Close id, Except.error ("start pty: " ++ e))
      | none =>
        ({ heap := (m.Close id).heap ++
            [{ ID := id, closed := false, cancelCalls := 0, ptmxCloses := 0, written := [],
               cols := 80, rows := 24 }],
           sessions := (m.Close id).sessions.insert id (m.Close id).heap.length },
          Except.ok (m.Close id).heap.length) := by
  unfold Manager.Create Manager.Close NewSession
  cases startErr <;> rfl

theorem Manager.Close_heap_length (m : Manager) (k : String) :
    (m.Close k).heap.length = m.heap.length := by
  unfold Manager.Close
  split
  · exact length_updateAt _ _ _
  · rfl

theorem Manager.inv_insert_fresh (m : Manager) (id : String) (s : Session) (hi : m.Inv)
    (hl : m.sessions.lookup id = none) (hid : s.ID = id) :
    Manager.Inv { heap := m.heap ++ [s], sessions := m.sessions.insert id m.heap.length } := by
  rcases hi with ⟨h1, h2⟩
  constructor
  · intro k p hk
    simp only at hk ⊢
    by_cases hki : k = id
    · subst hki
      rw [AList.lookup_insert] at hk
      have hp : m.heap.length = p := Option.some.inj hk
      subst hp
      exact ⟨s, List.getElem?_concat_length m.heap s, hid⟩
    · rw [AList.lookup_insert_ne hki] at hk
      rcases h1 k p hk with ⟨t, ht, htid⟩
      refine ⟨t, ?_, htid⟩
      rw [List.getElem?_append_left (List.getElem?_eq_some.mp ht).1]
      exact ht
  · intro p t hp hc
    simp only at hp ⊢
    by_cases hlt : p < m.heap.length
    · rw [List.getElem?_append_left hlt] at hp
      have hlk := h2 p t hp hc
      have hne : t.ID ≠ id := by
        intro he
        rw [he, hl] at hlk
        exact absurd hlk (by simp)
      rw [AList.lookup_insert_ne hne]
      exact hlk
    · have hge : m.heap.length ≤ p := Nat.le_of_not_lt hlt
      rw [List.getElem?_append_right hge] at hp
      have hp0 : p - m.heap.length = 0 := by
        by_contra hne
        have : 1 ≤ p - m.heap.length := Nat.one_le_iff_ne_zero.mpr hne
        rw [List.getElem?_eq_none (by simpa using this)] at hp
        exact absurd hp (by simp)
      rw [hp0] at hp
      simp only [List.getElem?_cons_zero, Option.some.injEq] at hp
      subst hp
      have hpe : p = m.heap.length := Nat.le_antisymm (Nat.sub_eq_zero_iff_le.mp hp0) hge
      rw [hid, AList.lookup_insert, hpe]

theorem Manager.inv_Create (m : Manager) (id : String) (startErr : Option String) (hi : m.Inv) :
    (m.Create id startErr).1.Inv := by
  rw [Manager.Create_eq]
  cases startErr with
  | some e => exact Manager.inv_Close m id hi
  | none =>
    exact Manager.inv_insert_fresh (m.Close id) id _ (Manager.inv_Close m id hi)
      (Manager.Close_lookup m id) rfl

theorem Manager.inv_processExit (m : Manager) (p : Ptr) (hi : m.Inv) :
    Manager.Inv { m with heap := updateAt m.heap p Session.Close } := by
  rcases hi with ⟨h1, h2⟩
  constructor
  · intro k q hk
    rcases h1 k q hk with ⟨s, hs, hid⟩
    rcases updateAt_Close_keeps m.heap p q s hs with ⟨s', hs', hid', _⟩
    exact ⟨s', hs', hid'.trans hid⟩
  · intro q s' hq hc
    rcases updateAt_Close_get m.heap p q s' hq with ⟨s, hs, _, hopen⟩
    rcases hopen hc with ⟨_, hss⟩
    subst hss
    exact h2 q s' hs hc

theorem Manager.inv_callAt (m : Manager) (p : Ptr) (f : Session → Session × Option String)
    (hf : ∀ s, (f s).1.ID = s.ID ∧ (f s).1.closed = s.closed) (hi : m.Inv) :
    (callAt m p f).1.Inv := by
  unfold callAt
  cases hp : m.heap[p]? with
  | none => exact hi
  | some s =>
    rcases hi with ⟨h1, h2⟩
    have hlt : p < m.heap.length := (List.getElem?_eq_some.mp hp).1
    constructor
    · intro k q hk
      simp only at hk ⊢
      rcases h1 k q hk with ⟨t, ht, hid⟩
      by_cases hq : q = p
      · subst hq
        rw [hp] at ht
        have hst : s = t := Option.some.inj ht
        subst hst
        exact ⟨(f s).1, List.getElem?_set_self hlt, (hf s).1.trans hid⟩
      · exact ⟨t, by rw [List.getElem?_set_ne (Ne.symm hq)]; exact ht, hid⟩
    · intro q t hq hc
      simp only at hq ⊢
      by_cases hqp : q = p
      · subst hqp
        rw [List.getElem?_set_self hlt] at hq
        have hst : (f s).1 = t := Option.some.inj hq
        subst hst
        rw [(hf s).1]
        exact h2 q s hp ((hf s).2 ▸ hc)
      · rw [List.getElem?_set_ne (Ne.symm hqp)] at hq
        exact h2 q t hq hc

theorem Session.Write_shape (data : String) (ptyErr : Option String) (s : Session) :
    (s.Write data ptyErr).1.ID = s.ID ∧ (s.Write data ptyErr).1.closed = s.closed := by
  unfold Session.Write
  split <;> exact ⟨rfl, rfl⟩

theorem Session.Resize_shape (cols rows : Nat) (ptyErr : Option String) (s : Session) :
    (s.Resize cols rows ptyErr).1.ID = s.ID ∧ (s.Resize cols rows ptyErr).1.closed = s.closed := by
  unfold Session.Resize
  split <;> exact ⟨rfl, rfl⟩

theorem Manager.inv_HandleMessage (m : Manager) (frame : Frame) (io : TermIO) (hi : m.Inv) :
    (m.HandleMessage frame io).1.Inv := by
  unfold Manager.HandleMessage
  cases frame with
  | error e => exact hi
  | ok msg =>
    simp only
    split
    · exact hi
    · split
      · have hc := Manager.inv_Create m (msg.getString "sessionId") io.startErr hi
        split
        · next m1 e heq => rw [heq] at hc; exact hc
        · next m1 p heq => rw [heq] at hc; exact hc
      · split
        · split
          · exact hi
          · exact Manager.inv_callAt m _ _ (Session.Write_shape _ _) hi
        · split
          · split
            · exact hi
            · exact Manager.inv_callAt m _ _ (Session.Resize_shape _ _ _) hi
          · split
            · exact Manager.inv_Close m _ hi
            · exact hi

theorem Manager.closeEntries_cons (m : Manager) (e : Sigma (fun _ : String => Ptr))
    (es : List (Sigma (fun _ : String => Ptr))) :
    m.closeEntries (e :: es) =
      Manager.closeEntries
        { heap := updateAt m.heap e.2 Session.Close, sessions := m.sessions.erase e.1 } es := rfl

theorem Manager.closeEntries_eq_Close (es : List (Sigma (fun _ : String => Ptr))) :
    ∀ m : Manager, es.NodupKeys → (∀ e ∈ es, m.sessions.lookup e.1 = some e.2) →
      m.closeEntries es = es.foldl (fun acc e => acc.Close e.1) m := by
  induction es with
  | nil => intro m _ _; rfl
  | cons e es ih =>
    intro m hnd hall
    rw [Manager.closeEntries_cons, List.foldl_cons,
      Manager.Close_present m e.1 e.2 (hall e (List.mem_cons_self e es))]
    rw [List.nodupKeys_cons] at hnd
    apply ih _ hnd.2
    intro e' he'
    simp only
    have hne : e'.1 ≠ e.1 := by
      intro heq
      exact hnd.1 (heq ▸ List.mem_keys_of_mem he')
    rw [AList.lookup_erase_ne hne]
    exact hall e' (List.mem_cons_of_mem e he')

theorem Manager.inv_foldl_Close (es : List (Sigma (fun _ : String => Ptr))) :
    ∀ m : Manager, m.Inv → (es.foldl (fun acc e => acc.Close e.1) m).Inv := by
  induction es with
  | nil => intro m hi; exact hi
  | cons e es ih => intro m hi; exact ih _ (Manager.inv_Close m e.1 hi)

theorem Manager.entries_lookup (m : Manager) :
    ∀ e ∈ m.sessions.entries, m.sessions.lookup e.1 = some e.2 := by
  intro e he
  have : e.2 ∈ m.sessions.lookup e.1 := AList.mem_lookup_iff.mpr he
  exact this

theorem Manager.inv_CloseAll (m : Manager) (hi : m.Inv) : m.CloseAll.Inv := by
  unfold Manager.CloseAll
  rw [Manager.closeEntries_eq_Close _ m m.sessions.nodupKeys (Manager.entries_lookup m)]
  exact Manager.inv_foldl_Close _ m hi

theorem Manager.inv_step (m : Manager) (ev : Event) (hi : m.Inv) : (m.step ev).Inv := by
  cases ev with
  | message frame io => exact Manager.inv_HandleMessage m frame io hi
  | create id startErr => exact Manager.inv_Create m id startErr hi
  | close id => exact Manager.inv_Close m id hi
  | closeAll => exact Manager.inv_CloseAll m hi
  | processExit p => exact Manager.inv_processExit m p hi

theorem Manager.inv_run (events : List Event) : ∀ m : Manager, m.Inv → (m.run events).Inv := by
  induction events with
  | nil => intro m hi; exact hi
  | cons ev evs ih => intro m hi; exact ih _ (Manager.inv_step m ev hi)

theorem length_le_one_of_all_eq {l : List Nat} (hnd : l.Nodup)
    (h : ∀ a ∈ l, ∀ b ∈ l, a = b) : l.length ≤ 1 := by
  match l, hnd, h with
  | [], _, _ => simp
  | [_], _, _ => simp
  | a :: b :: rest, hnd, h =>
    have hab : a = b := h a (List.mem_cons_self _ _) b (List.mem_cons_of_mem _ (List.mem_cons_self _ _))
    rw [List.nodup_cons] at hnd
    exact absurd (hab ▸ List.mem_cons_self _ _) hnd.1

theorem Manager.mem_live (m : Manager) (k : String) (p : Ptr) :
    p ∈ m.live k ↔ ∃ s, m.heap[p]? = some s ∧ s.ID = k ∧ s.closed = false := by
  unfold Manager.live
  rw [List.mem_filter, List.mem_range]
  constructor
  · rintro ⟨_, h⟩
    cases hs : m.heap[p]? with
    | none => rw [hs] at h; exact absurd h (by simp)
    | some s =>
      rw [hs] at h
      simp only [Bool.and_eq_true, decide_eq_true_eq, Bool.not_eq_true'] at h
      exact ⟨s, rfl, h.1, h.2⟩
  · rintro ⟨s, hs, hid, hc⟩
    refine ⟨(List.getElem?_eq_some.mp hs).1, ?_⟩
    rw [hs]
    simp [hid, hc]

theorem Manager.live_le_one (m : Manager) (k : String) (hi : m.Inv) : (m.live k).length ≤ 1 := by
  apply length_le_one_of_all_eq
  · exact List.Nodup.filter _ (List.nodup_range _)
  · intro a ha b hb
    rcases (Manager.mem_live m k a).mp ha with ⟨s, hs, hid, hc⟩
    rcases (Manager.mem_live m k b).mp hb with ⟨t, ht, htid, htc⟩
    have h1 := hi.2 a s hs hc
    have h2 := hi.2 b t ht htc
    rw [hid] at h1
    rw [htid, h1] at h2
    exact Option.some.inj h2

theorem Manager.Close_lookup_ne (m : Manager) (k k' : String) (h : k' ≠ k) :
    (m.Close k).sessions.lookup k' = m.sessions.lookup k' := by
  unfold Manager.Close
  split
  · exact AList.lookup_erase_ne h
  · rfl

theorem Manager.Close_heap_other (m : Manager) (k : String) (q : Ptr)
    (h : m.sessions.lookup k ≠ some q) : (m.Close k).heap[q]? = m.heap[q]? := by
  cases hl : m.sessions.lookup k with
  | none => rw [Manager.Close_absent m k hl]
  | some p =>
    rw [Manager.Close_present m k p hl]
    apply getElem?_updateAt_ne
    intro hqp
    exact h (by rw [hl, hqp])

/-- C6: the map holds at most one session per key; when `Create k` finds a session
`s` stored under `k`, the new session is spawned in the state `Close k`, in which
`s` has its closed flag set and `k` is absent (a failing spawn returns exactly that
state); a successful `Create k` maps `k` to the new open session and leaves the
entry and the session object of every other key as they were; after any run of the
multiplexer followed by any sequence of `terminal_open` messages for `k`, and indeed
after any run at all, at most one session with that key is live. -/
theorem create_replaces (m : Manager) (k : String) :
    (∀ p q : Ptr, Sigma.mk k p ∈ m.sessions.entries → Sigma.mk k q ∈ m.sessions.entries →
      p = q) ∧
    (∀ p s, m.sessions.lookup k = some p → m.heap[p]? = some s →
      (m.Close k).heap[p]? = some s.Close ∧ s.Close.closed = true ∧
      (m.Close k).sessions.lookup k = none ∧
      (∀ e, (m.Create k (some e)).1 = m.Close k) ∧
      (m.Create k none).1 =
        { heap := (m.Close k).heap ++ [freshSession k],
          sessions := (m.Close k).sessions.insert k (m.Close k).heap.length } ∧
      (m.Create k none).1.heap[p]? = some s.Close) ∧
    ((m.Create k none).2 = Except.ok m.heap.length ∧
      (m.Create k none).1.sessions.lookup k = some m.heap.length ∧
      (m.Create k none).1.heap[m.heap.length]? = some (freshSession k) ∧
      (freshSession k).closed = false ∧
      (∀ k', k' ≠ k → (m.Create k none).1.sessions.lookup k' = m.sessions.lookup k') ∧
      (∀ q, m.sessions.lookup k ≠ some q → q < m.heap.length →
        (m.Create k none).1.heap[q]? = m.heap[q]?)) ∧
    (∀ (events : List Event) (ios : List TermIO),
      (((NewManager.run events).run
        (ios.map (fun io => Event.message (terminalFrame "terminal_open" k []) io))).live
          k).length ≤ 1) ∧
    (∀ events : List Event, ((NewManager.run events).live k).length ≤ 1) := by
  have hlen := Manager.Close_heap_length m k
  refine ⟨?_, ?_, ?_, ?_, ?_⟩
  · intro p q hp hq
    exact List.NodupKeys.eq_of_mk_mem m.sessions.nodupKeys hp hq
  · intro p s hl hp
    have hlt : p < m.heap.length := (List.getElem?_eq_some.mp hp).1
    have hcl : (m.Close k).heap[p]? = some s.Close := by
      rw [Manager.Close_present m k p hl]
      simp only
      rw [getElem?_updateAt_self, hp]
      rfl
    refine ⟨hcl, Session.Close_closed s, Manager.Close_lookup m k, ?_, ?_, ?_⟩
    · intro e
      rw [Manager.Create_eq]
    · rw [Manager.Create_eq]
      rfl
    · rw [Manager.Create_eq]
      simp only
      rw [List.getElem?_append_left (by rw [hlen]; exact hlt)]
      exact hcl
  · rw [Manager.Create_eq]
    simp only
    refine ⟨by rw [hlen], ?_, ?_, rfl, ?_, ?_⟩
    · rw [AList.lookup_insert, hlen]
    · rw [← hlen]
      exact List.getElem?_concat_length _ _
    · intro k' hk'
      rw [AList.lookup_insert_ne hk']
      exact Manager.Close_lookup_ne m k k' hk'
    · intro q hq hlt
      rw [List.getElem?_append_left (by rw [hlen]; exact hlt)]
      exact Manager.Close_heap_other m k q hq
  · intro events ios
    apply Manager.live_le_one
    exact Manager.inv_run _ _ (Manager.inv_run events NewManager Manager.inv_new)
  · intro events
    exact Manager.live_le_one _ k (Manager.inv_run events NewManager Manager.inv_new)

/-- C6 on a manager that already holds a session under `s1`: the old session is closed
and the key is free in the state in which the replacement is spawned. -/
theorem create_replaces_witness :
    (managerOne.Close "s1").heap[0]? = some (freshSession "s1").Close ∧
    (freshSession "s1").Close.closed = true ∧
    (managerOne.Close "s1").sessions.lookup "s1" = none ∧
    (∀ e, (managerOne.Create "s1" (some e)).1 = managerOne.Close "s1") ∧
    (managerOne.Create "s1" none).1 =
      { heap := (managerOne.Close "s1").heap ++ [freshSession "s1"],
        sessions := (managerOne.Close "s1").sessions.insert "s1"
          (managerOne.Close "s1").heap.length } ∧
    (managerOne.Create "s1" none).1.heap[0]? = some (freshSession "s1").Close :=
  (create_replaces managerOne "s1").2.1 0 (freshSession "s1") (by decide) (by decide)

/-- C7, refuted as stated: a `terminal_input` message whose session key is the
empty string, a key that is not in the map, is answered with "missing sessionId"
and not with a "session not found" error. -/
theorem terminal_input_empty_key_counterexample :
    NewManager.sessions.lookup "" = none ∧
    NewManager.HandleMessage (terminalFrame "terminal_input" "" [("data", JVal.str "ls")]) ioOk =
      (NewManager, some "missing sessionId") ∧
    ¬ (∀ (m : Manager) (msg : JObj) (io : TermIO),
        msg.getString "type" = "terminal_input" →
        m.sessions.lookup (msg.getString "sessionId") = none →
        (m.HandleMessage (Except.ok msg) io).2 =
          some ("session not found: " ++ msg.getString "sessionId")) := by
  refine ⟨by decide, HandleMessage_empty_key _ _ _ (by decide), ?_⟩
  intro h
  have h1 := h NewManager
    [("type", JVal.str "terminal_input"), ("sessionId", JVal.str ""), ("data", JVal.str "ls")]
    ioOk (by decide) (by decide)
  exact absurd h1 (by decide)

/-- C7, amended: a `terminal_input` or `terminal_resize` message for a non-empty key
that is not in the session map returns the error "session not found: " followed by
the key, and one for a non-empty key whose session has its closed flag set returns
"session closed"; a message with the empty key returns "missing sessionId". In all
three cases an error is returned and the manager, with its map and every session
object, is exactly what it was. -/
theorem terminal_input_resize_fails (m : Manager) (msg : JObj) (io : TermIO)
    (ht : msg.getString "type" = "terminal_input" ∨ msg.getString "type" = "terminal_resize") :
    (msg.getString "sessionId" ≠ "" →
      m.sessions.lookup (msg.getString "sessionId") = none →
      m.HandleMessage (Except.ok msg) io =
        (m, some ("session not found: " ++ msg.getString "sessionId"))) ∧
    (msg.getString "sessionId" ≠ "" →
      ∀ p s, m.sessions.lookup (msg.getString "sessionId") = some p → m.heap[p]? = some s →
        s.closed = true → m.HandleMessage (Except.ok msg) io = (m, some "session closed")) ∧
    (msg.getString "sessionId" = "" →
      m.HandleMessage (Except.ok msg) io = (m, some "missing sessionId")) := by
  refine ⟨?_, ?_, HandleMessage_empty_key m msg io⟩
  · intro hk
    exact (HandleMessage_unknown_or_closed m msg io hk ht).1
  · intro hk
    exact (HandleMessage_unknown_or_closed m msg io hk ht).2

/-- C7 on an unknown key and on a key whose shell has exited. -/
theorem terminal_input_resize_fails_witness :
    NewManager.HandleMessage
        (Except.ok [("type", JVal.str "terminal_input"), ("sessionId", JVal.str "s1"),
          ("data", JVal.str "ls")]) ioOk =
      (NewManager, some "session not found: s1") ∧
    managerExited.HandleMessage
        (Except.ok [("type", JVal.str "terminal_resize"), ("sessionId", JVal.str "s1"),
          ("cols", JVal.num 120), ("rows", JVal.num 40)]) ioOk =
      (managerExited, some "session closed") :=
  ⟨(terminal_input_resize_fails NewManager
      [("type", JVal.str "terminal_input"), ("sessionId", JVal.str "s1"), ("data", JVal.str "ls")]
      ioOk (Or.inl (by decide))).1 (by decide) (by decide),
   (terminal_input_resize_fails managerExited
      [("type", JVal.str "terminal_resize"), ("sessionId", JVal.str "s1"),
        ("cols", JVal.num 120), ("rows", JVal.num 40)]
      ioOk (Or.inr (by decide))).2.1 (by decide) 0 (freshSession "s1").Close (by decide)
      (by decide) (by decide)⟩

theorem Manager.closeEntries_sessions (es : List (Sigma (fun _ : String => Ptr))) :
    ∀ m : Manager, (m.closeEntries es).sessions = es.foldl (fun a e => a.erase e.1) m.sessions := by
  induction es with
  | nil => intro m; rfl
  | cons e es ih => intro m; rw [Manager.closeEntries_cons, ih]; rfl

theorem Manager.closeEntries_heap (es : List (Sigma (fun _ : String => Ptr))) :
    ∀ m : Manager,
      (m.closeEntries es).heap = es.foldl (fun h e => updateAt h e.2 Session.Close) m.heap := by
  induction es with
  | nil => intro m; rfl
  | cons e es ih => intro m; rw [Manager.closeEntries_cons, ih]; rfl

theorem lookup_foldl_erase (es : List (Sigma (fun _ : String => Ptr))) :
    ∀ (a : AList (fun _ : String => Ptr)) (k : String),
      (a.lookup k = none ∨ k ∈ es.keys) →
      (es.foldl (fun a e => a.erase e.1) a).lookup k = none := by
  induction es with
  | nil =>
    intro a k h
    rcases h with h | h
    · exact h
    · exact absurd h (by simp)
  | cons e es ih =>
    intro a k h
    rw [List.foldl_cons]
    apply ih
    by_cases hk : k = e.1
    · left
      rw [hk]
      exact AList.lookup_erase e.1 a
    · rcases h with h | h
      · left
        rw [AList.lookup_erase_ne hk]
        exact h
      · right
        rw [List.keys_cons, List.mem_cons] at h
        rcases h with h | h
        · exact absurd h hk
        · exact h

theorem alist_eq_empty (a : AList (fun _ : String => Ptr)) (h : ∀ k, a.lookup k = none) :
    a = ∅ := by
  apply AList.ext
  rw [AList.empty_entries]
  cases he : a.entries with
  | nil => rfl
  | cons e es =>
    have hmem : e ∈ a.entries := by rw [he]; exact List.mem_cons_self e es
    have hl : e.2 ∈ a.lookup e.1 := AList.mem_lookup_iff.mpr hmem
    rw [h e.1] at hl
    exact absurd hl (by simp)

theorem Manager.CloseAll_sessions (m : Manager) : m.CloseAll.sessions = ∅ := by
  apply alist_eq_empty
  intro k
  unfold Manager.CloseAll
  rw [Manager.closeEntries_sessions]
  apply lookup_foldl_erase
  by_cases hk : k ∈ m.sessions.entries.keys
  · exact Or.inr hk
  · exact Or.inl (AList.lookup_eq_none.mpr hk)

theorem foldl_Close_get (es : List (Sigma (fun _ : String => Ptr))) :
    ∀ (heap : List Session) (q : Ptr) (s : Session), heap[q]? = some s →
      ∃ s', (es.foldl (fun h e => updateAt h e.2 Session.Close) heap)[q]? = some s' ∧
        s'.ID = s.ID ∧ (s.closed = true → s' = s) ∧
        ((∃ e ∈ es, e.2 = q) → s'.closed = true) := by
  induction es with
  | nil =>
    intro heap q s h
    refine ⟨s, h, rfl, fun _ => rfl, ?_⟩
    rintro ⟨e, he, _⟩
    exact absurd he (by simp)
  | cons e es ih =>
    intro heap q s h
    rcases updateAt_Close_keeps heap e.2 q s h with ⟨s1, hs1, hid1, hkeep1, hcl1⟩
    rcases ih (updateAt heap e.2 Session.Close) q s1 hs1 with ⟨s', hs', hid', hkeep', hcl'⟩
    refine ⟨s', hs', hid'.trans hid1, ?_, ?_⟩
    · intro hc
      have h1 := hkeep1 hc
      rw [hkeep' (h1 ▸ hc), h1]
    · rintro ⟨e', he', hq⟩
      rw [List.mem_cons] at he'
      rcases he' with he' | he'
      · subst he'
        have hc1 := hcl1 hq.symm
        rw [hkeep' hc1]
        exact hc1
      · exact hcl' ⟨e', he', hq⟩

theorem Session.Write_closed (s : Session) (data : String) (e : Option String)
    (h : s.closed = true) : s.Write data e = (s, some "session closed") := by
  unfold Session.Write
  rw [if_pos h]

theorem Session.Resize_closed (s : Session) (cols rows : Nat) (e : Option String)
    (h : s.closed = true) : s.Resize cols rows e = (s, some "session closed") := by
  unfold Session.Resize
  rw [if_pos h]

/-! ## The heartbeat service -/

/-- C10: `UpdateInterval d` with `d` below one second returns the service as it
was; with `d` of at least one second the stored interval becomes `d`; the client and
the agent id are never changed. -/
theorem updateInterval_floor (s : Service) (d : Int) :
    (d < 1 * Second → s.UpdateInterval d = s) ∧
    (d ≥ 1 * Second → (s.UpdateInterval d).interval = d) ∧
    (s.UpdateInterval d).client = s.client ∧
    (s.UpdateInterval d).agentID = s.agentID := by
  unfold Service.UpdateInterval
  refine ⟨?_, ?_, ?_, ?_⟩
  · intro h
    rw [if_neg]
    intro hc
    exact absurd h (not_lt.mpr hc.2)
  · intro h
    by_cases hd : d = s.interval
    · rw [if_neg (fun hc => hc.1 hd)]
      exact hd.symm
    · rw [if_pos ⟨hd, h⟩]
  · split <;> rfl
  · split <;> rfl

/-- C10 on the default service: half a second is ignored, two seconds are stored. -/
theorem updateInterval_floor_witness :
    serviceDefault.UpdateInterval 500000000 = serviceDefault ∧
    (serviceDefault.UpdateInterval (2 * Second)).interval = 2 * Second :=
  ⟨(updateInterval_floor serviceDefault 500000000).1 (by decide),
   (updateInterval_floor serviceDefault (2 * Second)).2.1 (by decide)⟩

/-! ## The log callback -/

theorem onLog_eq (jobID : String) (env : SendEnv) (line : String)
    (acc : List String × List Effect) :
    onLog jobID env line acc = (acc.1 ++ [line], acc.2 ++ lineEffects jobID env line) := by
  unfold onLog lineEffects
  dsimp only
  cases h : (sendJSON env (OutMsg.log { msgType := "log", JobID := jobID, Log := line })).1 with
  | none => simp
  | some e => simp

theorem streamLog_eq (jobID : String) (logEnv : Nat → SendEnv) (lines : List String) :
    ∀ (i : Nat) (acc : List String × List Effect),
      streamLog jobID logEnv i lines acc =
        (acc.1 ++ lines, acc.2 ++ perLineEffects jobID logEnv i lines) := by
  induction lines with
  | nil => intro i acc; simp [streamLog, perLineEffects]
  | cons l rest ih =>
    intro i acc
    simp only [streamLog, perLineEffects]
    rw [ih, onLog_eq]
    simp

theorem reportedLogs_append (xs ys : List Effect) :
    reportedLogs (xs ++ ys) = reportedLogs xs ++ reportedLogs ys := by
  unfold reportedLogs
  exact List.filterMap_append _ _ _

theorem pushedLogs_append (xs ys : List Effect) :
    pushedLogs (xs ++ ys) = pushedLogs xs ++ pushedLogs ys := by
  unfold pushedLogs
  exact List.filterMap_append _ _ _

theorem sendJSON_writes (env : SendEnv) (v : OutMsg) :
    (sendJSON env v).2 = [] ∨ (sendJSON env v).2 = [Effect.wsWrite v] := by
  unfold sendJSON
  cases env.conn with
  | none => exact Or.inl rfl
  | some _ =>
    cases env.marshalErr with
    | none => exact Or.inr rfl
    | some _ => exact Or.inl rfl

theorem sendJSON_ok_writes (env : SendEnv) (v : OutMsg) (h : (sendJSON env v).1 = none) :
    (sendJSON env v).2 = [Effect.wsWrite v] := by
  unfold sendJSON at h ⊢
  cases hc : env.conn with
  | none => rw [hc] at h; exact absurd h (by simp)
  | some _ =>
    rw [hc] at h
    cases hm : env.marshalErr with
    | none => rfl
    | some _ => rw [hm] at h; exact absurd h (by simp)

theorem reportedLogs_sendJSON (env : SendEnv) (v : OutMsg) :
    reportedLogs (sendJSON env v).2 = [] := by
  rcases sendJSON_writes env v with h | h <;> rw [h] <;> rfl

/-- C15: the lines aggregated by `executeJob` are the streamed lines in callback
order, whatever the outcome of any push; the effects of the job begin with the
effects of each line taken on its own, in order, the `i`-th line under the
circumstances of the `i`-th push only, and nothing after them is a log push or a
`ReportJobLog`; for one line a push that succeeds gives its socket write and no
fallback, and a push that fails gives exactly one `ReportJobLog` with the job id
and the line. -/
theorem log_push_then_fallback (agentID : String) (msg : ExecuteMessage) (w : JobWorld)
    (env : SendEnv) (line : String) (i : Nat) (rest : List String) :
    (executeJob agentID msg w).outputLines =
      (w.runner (jobTimeout msg.Timeout) msg.Script).lines ∧
    (∃ tail, (executeJob agentID msg w).effects =
        perLineEffects msg.JobID w.logEnv 0
          (w.runner (jobTimeout msg.Timeout) msg.Script).lines ++ tail ∧
      reportedLogs tail = [] ∧ pushedLogs tail = []) ∧
    perLineEffects msg.JobID w.logEnv i (line :: rest) =
      lineEffects msg.JobID (w.logEnv i) line ++ perLineEffects msg.JobID w.logEnv (i + 1) rest ∧
    ((sendJSON env (OutMsg.log { msgType := "log", JobID := msg.JobID, Log := line })).1 = none →
      lineEffects msg.JobID env line =
        [Effect.wsWrite (OutMsg.log { msgType := "log", JobID := msg.JobID, Log := line })] ∧
      reportedLogs (lineEffects msg.JobID env line) = []) ∧
    ((sendJSON env (OutMsg.log { msgType := "log", JobID := msg.JobID, Log := line })).1 ≠ none →
      lineEffects msg.JobID env line =
        (sendJSON env (OutMsg.log { msgType := "log", JobID := msg.JobID, Log := line })).2 ++
          [Effect.httpReportJobLog msg.JobID line] ∧
      reportedLogs (lineEffects msg.JobID env line) = [(msg.JobID, line)]) ∧
    (pushedLogs (lineEffects msg.JobID env line) = [] ∨
      pushedLogs (lineEffects msg.JobID env line) =
        [{ msgType := "log", JobID := msg.JobID, Log := line }]) := by
  refine ⟨?_, ?_, rfl, ?_, ?_, ?_⟩
  · simp [executeJob, streamLog_eq]
  · rw [executeJob_effects, streamLog_eq]
    simp only [List.nil_append, List.append_assoc]
    refine ⟨_, rfl, ?_, ?_⟩
    · rw [reportedLogs_append, reportedLogs_sendJSON]
      cases (executeJob agentID msg w).pushError <;> rfl
    · rw [pushedLogs_append]
      have h1 : pushedLogs (sendJSON w.resultEnv
          (OutMsg.result (executeJob agentID msg w).result)).2 = [] := by
        rcases sendJSON_writes w.resultEnv (OutMsg.result (executeJob agentID msg w).result)
          with h | h <;> rw [h] <;> rfl
      rw [h1]
      cases (executeJob agentID msg w).pushError <;> rfl
  · intro h
    have hw := sendJSON_ok_writes env _ h
    unfold lineEffects
    rw [h, hw]
    exact ⟨rfl, rfl⟩
  · intro h
    unfold lineEffects
    cases hs : (sendJSON env (OutMsg.log { msgType := "log", JobID := msg.JobID, Log := line })).1 with
    | none => exact absurd hs h
    | some e =>
      refine ⟨by simp, ?_⟩
      rw [reportedLogs_append, reportedLogs_sendJSON]
      rfl
  · unfold lineEffects
    rw [pushedLogs_append]
    have h2 : pushedLogs (if (sendJSON env
        (OutMsg.log { msgType := "log", JobID := msg.JobID, Log := line })).1.isSome = true
        then [Effect.httpReportJobLog msg.JobID line] else []) = [] := by
      split <;> rfl
    rw [h2]
    rcases sendJSON_writes env (OutMsg.log { msgType := "log", JobID := msg.JobID, Log := line })
      with h | h
    · left; rw [h]; rfl
    · right; rw [h]; rfl

/-- C15 on a job of two lines of which the first push fails: one `ReportJobLog`, for
the first line, and both lines aggregated. -/
theorem log_push_then_fallback_witness :
    (lineEffects jobHi.JobID liveEnv "two" =
        [Effect.wsWrite (OutMsg.log { msgType := "log", JobID := jobHi.JobID, Log := "two" })] ∧
      reportedLogs (lineEffects jobHi.JobID liveEnv "two") = []) ∧
    (lineEffects jobHi.JobID brokenEnv "one" =
        (sendJSON brokenEnv (OutMsg.log { msgType := "log", JobID := jobHi.JobID, Log := "one" })).2 ++
          [Effect.httpReportJobLog jobHi.JobID "one"] ∧
      reportedLogs (lineEffects jobHi.JobID brokenEnv "one") = [(jobHi.JobID, "one")]) :=
  ⟨(log_push_then_fallback "agent-1" jobHi worldFlaky liveEnv "two" 1 []).2.2.2.1 (by decide),
   (log_push_then_fallback "agent-1" jobHi worldFlaky brokenEnv "one" 0 ["two"]).2.2.2.2.1
     (by decide)⟩

/-! ## The heartbeat loop and the remote configuration -/

theorem secondsToDuration_of_range (n : Int) (hlo : -9223372036 ≤ n) (hhi : n ≤ 9223372036) :
    secondsToDuration n = n * Second := by
  unfold secondsToDuration
  rw [wrap64_of_range n (by omega) (by omega),
    wrap64_of_range (n * Second) (by unfold Second; omega) (by unfold Second; omega)]

theorem Service.UpdateInterval_of_ge (s : Service) (d : Int) (h : d ≥ 1 * Second) :
    (s.UpdateInterval d).interval = d := by
  unfold Service.UpdateInterval
  by_cases hd : d = s.interval
  · rw [if_neg (fun hc => hc.1 hd)]
    exact hd.symm
  · rw [if_pos ⟨hd, h⟩]

theorem Service.UpdateInterval_of_lt (s : Service) (d : Int) (h : d < 1 * Second) :
    s.UpdateInterval d = s := by
  unfold Service.UpdateInterval
  rw [if_neg]
  intro hc
  exact absurd h (not_lt.mpr hc.2)

theorem Service.UpdateInterval_floor (s : Service) (d : Int) (h : 1 * Second ≤ s.interval) :
    1 * Second ≤ (s.UpdateInterval d).interval := by
  unfold Service.UpdateInterval
  split
  · next hc => exact hc.2
  · exact h

theorem updateInterval_keeps_floor (ds : List Int) :
    ∀ s : Service, 1 * Second ≤ s.interval →
      1 * Second ≤ (ds.foldl Service.UpdateInterval s).interval := by
  induction ds with
  | nil => intro s h; exact h
  | cons d ds ih => intro s h; exact ih _ (Service.UpdateInterval_floor s d h)

/-- C14, the code at a configured interval of 0 seconds: `NewService` stores an
interval of zero, updates below one second leave it there, and `Start` then asks
for a ticker with a duration that is not positive; so the stored interval is not at
least one second after every sequence of updates. -/
theorem newService_below_floor :
    serviceZero.interval = 0 ∧
    ([500000000, 0, -5].foldl Service.UpdateInterval serviceZero).interval = 0 ∧
    serviceZero.Start 0 0 = Except.error "non-positive interval for NewTicker" ∧
    ¬ (∀ (c : HTTPClient) (agentID : String) (intervalSec : Int) (ds : List Int),
        1 * Second ≤ (ds.foldl Service.UpdateInterval (NewService c agentID intervalSec)).interval) := by
  refine ⟨by decide, by decide, rfl, ?_⟩
  intro h
  exact absurd (h { ServerURL := "http://localhost:8080" } "agent-1" 0 []) (by decide)

/-- C11, refuted as stated: the default loop has its 30-second tick pending; an
update to 2 seconds one second after the start leaves the deadline of that tick
where it was, so the next heartbeat comes 29 seconds after the update. -/
theorem update_pending_tick_counterexample :
    serviceDefault.Start 0 0 = Except.ok loopDefault ∧
    (loopDefault.update (2 * Second)).deadline = 30 * Second ∧
    (loopDefault.update (2 * Second)).tick 0 =
      Except.ok { svc := serviceDefault.UpdateInterval (2 * Second), deadline := 32 * Second,
                  sent := [0, 30 * Second] } ∧
    (loopDefault.update (2 * Second)).deadline - 1 * Second = 29 * Second ∧
    ¬ (∀ u : Int, 0 ≤ u ∧ u < 30 * Second →
        (loopDefault.update (2 * Second)).deadline - u ≤ 2 * Second) := by
  refine ⟨rfl, by decide, rfl, by decide, ?_⟩
  intro h
  exact absurd (h (1 * Second) (by decide)) (by decide)

/-- C11, amended: an update of the interval while a tick is pending does not move
the deadline of that tick, so the next heartbeat is sent when the old interval has
run out; the ticker is reset only when that tick is handled, and for a new interval
of at least one second the tick after it arrives the new interval after the reset. -/
theorem update_takes_effect_at_next_tick (l : Loop) (d dur : Int) :
    (l.update d).deadline = l.deadline ∧
    (l.update d).sent = l.sent ∧
    (1 * Second ≤ d →
      (l.update d).tick dur =
        Except.ok { svc := l.svc.UpdateInterval d, deadline := l.deadline + dur + d,
                    sent := l.sent ++ [l.deadline] }) := by
  refine ⟨rfl, rfl, ?_⟩
  intro h
  have hi : (l.svc.UpdateInterval d).interval = d := Service.UpdateInterval_of_ge l.svc d h
  have hpos : ¬ d ≤ 0 := by
    unfold Second at h
    omega
  simp only [Loop.tick, Loop.update, tickerReset, Service.getInterval, hi, hpos, if_false]

/-- C11 on the default loop: after an update to 2 seconds the pending tick still
arrives at 30 seconds, and the one after it at 32 seconds. -/
theorem update_takes_effect_at_next_tick_witness :
    (loopDefault.update (2 * Second)).tick 0 =
      Except.ok { svc := loopDefault.svc.UpdateInterval (2 * Second),
                  deadline := loopDefault.deadline + 0 + 2 * Second,
                  sent := loopDefault.sent ++ [loopDefault.deadline] } :=
  (update_takes_effect_at_next_tick loopDefault (2 * Second) 0).2.2 (by decide)

theorem applyIntervalKey_positive (key : String) (cfgMap : List (String × String))
    (acc : Service × List Int) (v : String) (seconds : Int)
    (hl : cfgMap.lookup key = some v) (hp : Atoi v = some seconds) (h0 : 0 < seconds) :
    applyIntervalKey key cfgMap acc =
      (acc.1.UpdateInterval (secondsToDuration seconds), acc.2 ++ [secondsToDuration seconds]) := by
  unfold applyIntervalKey
  rw [hl]
  simp only [hp]
  rw [if_pos h0]

theorem applyIntervalKey_none (key : String) (cfgMap : List (String × String))
    (acc : Service × List Int)
    (h : ∀ v seconds, cfgMap.lookup key = some v → Atoi v = some seconds → seconds ≤ 0) :
    applyIntervalKey key cfgMap acc = acc := by
  unfold applyIntervalKey
  cases hl : cfgMap.lookup key with
  | none => rfl
  | some v =>
    simp only
    cases hp : Atoi v with
    | none => rfl
    | some seconds =>
      simp only
      rw [if_neg (not_lt.mpr (h v seconds hl hp))]

/-- C16, refuted as stated: with a heartbeat interval of 10 and a metrics interval of
9223372037, both positive integers, the second call of `UpdateInterval` receives a
negative duration, because that many seconds do not fit 64 bits of nanoseconds, and
the interval ends up at 10 seconds. -/
theorem applyRemoteConfig_counterexample :
    Atoi "9223372037" = some 9223372037 ∧
    (applyRemoteConfig serviceDefault (Except.ok configHuge)).2 =
      [10 * Second, -9223372036709551616] ∧
    (applyRemoteConfig serviceDefault (Except.ok configHuge)).1.interval = 10 * Second ∧
    (applyRemoteConfig serviceDefault (Except.ok configHuge)).1.interval ≠
      9223372037 * Second := by
  refine ⟨by decide, by decide, by decide, by decide⟩

/-- C16, amended: when the fetched configuration holds under both keys values that
parse as positive integers `h` and `m` of at most 9223372036, `UpdateInterval` is
called with `h` seconds and then with `m` seconds, and the interval ends up at `m`
seconds; whatever the size of `h` and `m`, the two calls are made in that order; a
key that is absent, or whose value does not parse, or parses as an integer that is
not positive, causes no call. -/
theorem applyRemoteConfig_both (svc : Service) (cfgMap : List (String × String)) :
    (∀ vh vm h m, cfgMap.lookup "agent.heartbeat.interval" = some vh →
      cfgMap.lookup "agent.metrics.interval" = some vm →
      Atoi vh = some h → Atoi vm = some m → 0 < h → 0 < m →
      (applyRemoteConfig svc (Except.ok cfgMap)).2 =
          [secondsToDuration h, secondsToDuration m] ∧
        (h ≤ 9223372036 → m ≤ 9223372036 →
          (applyRemoteConfig svc (Except.ok cfgMap)).2 = [h * Second, m * Second] ∧
          (applyRemoteConfig svc (Except.ok cfgMap)).1.interval = m * Second)) ∧
    applyRemoteConfig svc (Except.ok cfgMap) =
      applyIntervalKey "agent.metrics.interval" cfgMap
        (applyIntervalKey "agent.heartbeat.interval" cfgMap (svc, [])) ∧
    (∀ key acc,
      (∀ v seconds, cfgMap.lookup key = some v → Atoi v = some seconds → seconds ≤ 0) →
      applyIntervalKey key cfgMap acc = acc) ∧
    (∀ e, applyRemoteConfig svc (Except.error e) = (svc, [])) := by
  refine ⟨?_, rfl, fun key acc h => applyIntervalKey_none key cfgMap acc h, fun _ => rfl⟩
  intro vh vm h m hlh hlm hph hpm h0 m0
  have hcalls : applyRemoteConfig svc (Except.ok cfgMap) =
      ((svc.UpdateInterval (secondsToDuration h)).UpdateInterval (secondsToDuration m),
        [secondsToDuration h, secondsToDuration m]) := by
    unfold applyRemoteConfig
    simp only
    rw [applyIntervalKey_positive _ cfgMap (svc, []) vh h hlh hph h0,
      applyIntervalKey_positive _ cfgMap _ vm m hlm hpm m0]
    rfl
  rw [hcalls]
  refine ⟨rfl, ?_⟩
  intro h1 m1
  rw [secondsToDuration_of_range h (by omega) h1, secondsToDuration_of_range m (by omega) m1]
  refine ⟨rfl, ?_⟩
  apply Service.UpdateInterval_of_ge
  unfold Second
  omega

/-- C16 on a configuration with a heartbeat interval of 10 and a metrics interval of
60: two calls, and the interval ends up at 60 seconds. -/
theorem applyRemoteConfig_both_witness :
    (applyRemoteConfig serviceDefault (Except.ok configBoth)).2 = [10 * Second, 60 * Second] ∧
    (applyRemoteConfig serviceDefault (Except.ok configBoth)).1.interval = 60 * Second :=
  ((applyRemoteConfig_both serviceDefault configBoth).1 "10" "60" 10 60 (by decide) (by decide)
    (by decide) (by decide) (by decide) (by decide)).2 (by decide) (by decide)

/-! ## The dispatcher -/

theorem HandleMessage_open (m : Manager) (msg : JObj) (io : TermIO)
    (hk : msg.getString "sessionId" ≠ "") (ht : msg.getString "type" = "terminal_open") :
    m.HandleMessage (Except.ok msg) io =
      ((m.Create (msg.getString "sessionId") io.startErr).1,
        match (m.Create (msg.getString "sessionId") io.startErr).2 with
        | Except.error e => some ("create session: " ++ e)
        | Except.ok _ => none) := by
  simp only [Manager.HandleMessage, hk, ht, if_false, if_true]
  rcases hc : m.Create (msg.getString "sessionId") io.startErr with ⟨m1, r⟩
  cases r <;> rfl

theorem HandleMessage_close (m : Manager) (msg : JObj) (io : TermIO)
    (hk : msg.getString "sessionId" ≠ "") (ht : msg.getString "type" = "terminal_close") :
    m.HandleMessage (Except.ok msg) io = (m.Close (msg.getString "sessionId"), none) := by
  simp only [Manager.HandleMessage, hk, ht, if_false]
  rfl

theorem HandleMessage_unknown (m : Manager) (msg : JObj) (io : TermIO)
    (hk : msg.getString "sessionId" ≠ "")
    (h1 : msg.getString "type" ≠ "terminal_open") (h2 : msg.getString "type" ≠ "terminal_input")
    (h3 : msg.getString "type" ≠ "terminal_resize")
    (h4 : msg.getString "type" ≠ "terminal_close") :
    m.HandleMessage (Except.ok msg) io =
      (m, some ("unknown terminal message type: " ++ msg.getString "type")) := by
  simp only [Manager.HandleMessage, hk, h1, h2, h3, h4, if_false]

theorem callAt_sessions (m : Manager) (p : Ptr) (f : Session → Session × Option String) :
    (callAt m p f).1.sessions = m.sessions := by
  unfold callAt
  split <;> rfl

theorem callAt_heap_other (m : Manager) (p q : Ptr) (f : Session → Session × Option String)
    (h : q ≠ p) : (callAt m p f).1.heap[q]? = m.heap[q]? := by
  unfold callAt
  split
  · exact List.getElem?_set_ne (Ne.symm h)
  · rfl

theorem Create_lookup_ne (m : Manager) (k k' : String) (startErr : Option String)
    (h : k' ≠ k) : (m.Create k startErr).1.sessions.lookup k' = m.sessions.lookup k' := by
  rw [Manager.Create_eq]
  cases startErr with
  | some e => exact Manager.Close_lookup_ne m k k' h
  | none =>
    simp only
    rw [AList.lookup_insert_ne h]
    exact Manager.Close_lookup_ne m k k' h

theorem Create_heap_other (m : Manager) (k : String) (startErr : Option String) (q : Ptr)
    (h : m.sessions.lookup k ≠ some q) (hlt : q < m.heap.length) :
    (m.Create k startErr).1.heap[q]? = m.heap[q]? := by
  rw [Manager.Create_eq]
  cases startErr with
  | some e => exact Manager.Close_heap_other m k q h
  | none =>
    simp only
    rw [List.getElem?_append_left (by rw [Manager.Close_heap_length]; exact hlt)]
    exact Manager.Close_heap_other m k q h

/-- Whatever the message and its outcome, `HandleMessage` leaves the entry of every
key other than the one of the message, and every session object that the key of
the message does not point to, as they were. -/
theorem HandleMessage_others (m : Manager) (msg : JObj) (io : TermIO) :
    (∀ k', k' ≠ msg.getString "sessionId" →
      (m.HandleMessage (Except.ok msg) io).1.sessions.lookup k' = m.sessions.lookup k') ∧
    (∀ q, m.sessions.lookup (msg.getString "sessionId") ≠ some q → q < m.heap.length →
      (m.HandleMessage (Except.ok msg) io).1.heap[q]? = m.heap[q]?) := by
  by_cases hk : msg.getString "sessionId" = ""
  · rw [HandleMessage_empty_key m msg io hk]
    exact ⟨fun _ _ => rfl, fun _ _ _ => rfl⟩
  by_cases h1 : msg.getString "type" = "terminal_open"
  · rw [HandleMessage_open m msg io hk h1]
    exact ⟨fun k' hk' => Create_lookup_ne m _ k' _ hk',
      fun q hq hlt => Create_heap_other m _ _ q hq hlt⟩
  by_cases h2 : msg.getString "type" = "terminal_input"
  · rw [HandleMessage_input m msg io hk h2]
    unfold Manager.Get
    cases hl : m.sessions.lookup (msg.getString "sessionId") with
    | none => exact ⟨fun _ _ => rfl, fun _ _ _ => rfl⟩
    | some p =>
      refine ⟨fun k' _ => by simp only [callAt_sessions], fun q hq _ => ?_⟩
      apply callAt_heap_other
      intro hqp
      exact hq (by rw [hqp])
  by_cases h3 : msg.getString "type" = "terminal_resize"
  · rw [HandleMessage_resize m msg io hk h3]
    unfold Manager.Get
    cases hl : m.sessions.lookup (msg.getString "sessionId") with
    | none => exact ⟨fun _ _ => rfl, fun _ _ _ => rfl⟩
    | some p =>
      refine ⟨fun k' _ => by simp only [callAt_sessions], fun q hq _ => ?_⟩
      apply callAt_heap_other
      intro hqp
      exact hq (by rw [hqp])
  by_cases h4 : msg.getString "type" = "terminal_close"
  · rw [HandleMessage_close m msg io hk h4]
    exact ⟨fun k' hk' => Manager.Close_lookup_ne m _ k' hk',
      fun q hq _ => Manager.Close_heap_other m _ q hq⟩
  · rw [HandleMessage_unknown m msg io hk h1 h2 h3 h4]
    exact ⟨fun _ _ => rfl, fun _ _ _ => rfl⟩

theorem Manager.Inv_distinct (m : Manager) (hi : m.Inv) (k k' : String) (p' : Ptr)
    (hne : k' ≠ k) (hl : m.sessions.lookup k' = some p') :
    m.sessions.lookup k ≠ some p' ∧ p' < m.heap.length := by
  rcases hi.1 k' p' hl with ⟨s, hs, hid⟩
  refine ⟨?_, (List.getElem?_eq_some.mp hs).1⟩
  intro hk
  rcases hi.1 k p' hk with ⟨t, ht, htid⟩
  rw [hs] at ht
  have hst : s = t := Option.some.inj ht
  subst hst
  exact hne (hid.symm.trans htid)

theorem handleTerminalMessage_error (c : Client) (msg : JObj) (io : TermIO) (wire : SendEnv)
    (e : String) (h : (c.termManager.HandleMessage (Except.ok msg) io).2 = some e) :
    c.handleTerminalMessage msg io wire =
      { client := { c with termManager := (c.termManager.HandleMessage (Except.ok msg) io).1 },
        started := [],
        sent := [OutMsg.terminalError (msg.getString "sessionId") e],
        effects := (sendJSON { wire with conn := c.conn }
          (OutMsg.terminalError (msg.getString "sessionId") e)).2 } := by
  unfold Client.handleTerminalMessage
  simp only [h]

theorem handleTerminalMessage_ok (c : Client) (msg : JObj) (io : TermIO) (wire : SendEnv)
    (h : (c.termManager.HandleMessage (Except.ok msg) io).2 = none) :
    c.handleTerminalMessage msg io wire =
      if msg.getString "type" = "terminal_open" then
        { client := { c with termManager := (c.termManager.HandleMessage (Except.ok msg) io).1 },
          started := [],
          sent := [OutMsg.terminalReady (msg.getString "sessionId")],
          effects := (sendJSON { wire with conn := c.conn }
            (OutMsg.terminalReady (msg.getString "sessionId"))).2 }
      else
        { client := { c with termManager := (c.termManager.HandleMessage (Except.ok msg) io).1 },
          started := [], sent := [], effects := [] } := by
  unfold Client.handleTerminalMessage
  simp only [h]

theorem handleMessage_terminal (c : Client) (doc : JDoc) (io : TermIO) (wire : SendEnv)
    (ht : doc.toMap.getString "type" = "terminal_open" ∨
      doc.toMap.getString "type" = "terminal_input" ∨
      doc.toMap.getString "type" = "terminal_resize" ∨
      doc.toMap.getString "type" = "terminal_close") :
    c.handleMessage (Except.ok doc) io wire = c.handleTerminalMessage doc.toMap io wire := by
  have hne : doc.toMap.getString "type" ≠ "execute" := by
    intro he
    rw [he] at ht
    revert ht
    decide
  simp only [Client.handleMessage, hne, ht, if_false, if_true]

/-! ## Teardown of the sessions -/

theorem HandleMessage_error_frame (m : Manager) (e : String) (io : TermIO) :
    m.HandleMessage (Except.error e) io = (m, some ("unmarshal: " ++ e)) := rfl

theorem no_empty_key_step (m : Manager) (ev : Event) (hb : ev.byAgent = true)
    (h : m.sessions.lookup "" = none) : (m.step ev).sessions.lookup "" = none := by
  cases ev with
  | message frame io =>
    cases frame with
    | error e => exact h
    | ok msg =>
      by_cases hk : msg.getString "sessionId" = ""
      · simp only [Manager.step]
        rw [HandleMessage_empty_key m msg io hk]
        exact h
      · simp only [Manager.step]
        rw [(HandleMessage_others m msg io).1 "" (fun he => hk he.symm)]
        exact h
  | create id startErr => exact absurd hb (by simp [Event.byAgent])
  | close id => exact absurd hb (by simp [Event.byAgent])
  | closeAll =>
    simp only [Manager.step]
    rw [Manager.CloseAll_sessions]
    exact AList.lookup_empty _
  | processExit p => exact h

theorem no_empty_key_run (events : List Event) :
    ∀ m : Manager, (∀ ev ∈ events, ev.byAgent = true) → m.sessions.lookup "" = none →
      (m.run events).sessions.lookup "" = none := by
  induction events with
  | nil => intro m _ h; exact h
  | cons ev evs ih =>
    intro m hall h
    exact ih (m.step ev) (fun e he => hall e (List.mem_cons_of_mem ev he))
      (no_empty_key_step m ev (hall ev (List.mem_cons_self ev evs)) h)

/-- C9: after `CloseAll` the session map is empty and every session that was in it
has its closed flag set, so a direct `Write` or `Resize` on such a session object
returns "session closed"; in every state that the agent reaches from `NewManager`,
a later `terminal_input` or `terminal_resize` for a key that was in the map returns
"session not found" and changes nothing (as does one for any non-empty key, in any
state); `Client.close` on a connection handle that is not nil performs `CloseAll`
and leaves the handle nil, and on a nil handle it does nothing. -/
theorem closeAll_empties (m : Manager) (c : Client) :
    m.CloseAll.sessions = ∅ ∧
    (∀ k p s, m.sessions.lookup k = some p → m.heap[p]? = some s →
      ∃ s', m.CloseAll.heap[p]? = some s' ∧ s'.closed = true ∧ s'.ID = s.ID ∧
        (∀ data e, s'.Write data e = (s', some "session closed")) ∧
        (∀ cols rows e, s'.Resize cols rows e = (s', some "session closed"))) ∧
    (∀ (events : List Event) (k : String) (p : Ptr) (msg : JObj) (io : TermIO),
      (∀ ev ∈ events, ev.byAgent = true) → m = NewManager.run events →
      m.sessions.lookup k = some p → msg.getString "sessionId" = k →
      (msg.getString "type" = "terminal_input" ∨ msg.getString "type" = "terminal_resize") →
      m.CloseAll.HandleMessage (Except.ok msg) io =
        (m.CloseAll, some ("session not found: " ++ k))) ∧
    (∀ (msg : JObj) (io : TermIO), msg.getString "sessionId" ≠ "" →
      (msg.getString "type" = "terminal_input" ∨ msg.getString "type" = "terminal_resize") →
      m.CloseAll.HandleMessage (Except.ok msg) io =
        (m.CloseAll, some ("session not found: " ++ msg.getString "sessionId"))) ∧
    (c.conn ≠ none → c.close.conn = none ∧ c.close.termManager = c.termManager.CloseAll ∧
      c.close.termManager.sessions = ∅) ∧
    (c.conn = none → c.close = c) := by
  have hnf : ∀ (msg : JObj) (io : TermIO), msg.getString "sessionId" ≠ "" →
      (msg.getString "type" = "terminal_input" ∨ msg.getString "type" = "terminal_resize") →
      m.CloseAll.HandleMessage (Except.ok msg) io =
        (m.CloseAll, some ("session not found: " ++ msg.getString "sessionId")) := by
    intro msg io hk ht
    apply (HandleMessage_unknown_or_closed m.CloseAll msg io hk ht).1
    rw [Manager.CloseAll_sessions]
    exact AList.lookup_empty _
  refine ⟨Manager.CloseAll_sessions m, ?_, ?_, hnf, ?_, ?_⟩
  · intro k p s hl hp
    have hmem : (⟨k, p⟩ : Sigma (fun _ : String => Ptr)) ∈ m.sessions.entries :=
      AList.mem_lookup_iff.mp hl
    rcases foldl_Close_get m.sessions.entries m.heap p s hp with ⟨s', hs', hid, _, hcl⟩
    have hc : s'.closed = true := hcl ⟨⟨k, p⟩, hmem, rfl⟩
    refine ⟨s', ?_, hc, hid, fun data e => Session.Write_closed s' data e hc,
      fun cols rows e => Session.Resize_closed s' cols rows e hc⟩
    unfold Manager.CloseAll
    rw [Manager.closeEntries_heap]
    exact hs'
  · intro events k p msg io hall hm hl hk ht
    have hempty : m.sessions.lookup "" = none := by
      rw [hm]
      exact no_empty_key_run events NewManager hall (AList.lookup_empty _)
    have hne : msg.getString "sessionId" ≠ "" := by
      intro he
      rw [← hk, he, hempty] at hl
      exact absurd hl (by simp)
    rw [← hk]
    exact hnf msg io hne ht
  · intro hc
    unfold Client.close
    cases hcn : c.conn with
    | none => exact absurd hcn hc
    | some cn => exact ⟨rfl, rfl, Manager.CloseAll_sessions _⟩
  · intro hc
    unfold Client.close
    rw [hc]

/-- C9 on the manager of an agent that has opened the session `s1`, and on a client
with a live connection. -/
theorem closeAll_empties_witness :
    (∃ s', (NewManager.run eventsOpen).CloseAll.heap[0]? = some s' ∧ s'.closed = true ∧
        s'.ID = (freshSession "s1").ID ∧
        (∀ data e, s'.Write data e = (s', some "session closed")) ∧
        (∀ cols rows e, s'.Resize cols rows e = (s', some "session closed"))) ∧
    (NewManager.run eventsOpen).CloseAll.HandleMessage
        (Except.ok [("type", JVal.str "terminal_input"), ("sessionId", JVal.str "s1")]) ioOk =
      ((NewManager.run eventsOpen).CloseAll, some ("session not found: " ++ "s1")) ∧
    (clientOne.close.conn = none ∧ clientOne.close.termManager = clientOne.termManager.CloseAll ∧
      clientOne.close.termManager.sessions = ∅) :=
  ⟨(closeAll_empties (NewManager.run eventsOpen) clientOne).2.1 "s1" 0 (freshSession "s1")
      (by decide) (by decide),
   (closeAll_empties (NewManager.run eventsOpen) clientOne).2.2.1 eventsOpen "s1" 0
      [("type", JVal.str "terminal_input"), ("sessionId", JVal.str "s1")] ioOk
      (by decide) rfl (by decide) (by decide) (Or.inl (by decide)),
   (closeAll_empties (NewManager.run eventsOpen) clientOne).2.2.2.2.1 (by decide)⟩

/-- C13: when the multiplexer returns an error `e` for a terminal message with
session id `s`, the client hands exactly one reply to `sendJSON`, the
`terminal_error` for `s` with the text of `e`, so no `terminal_ready`, and the entry
and the session object of every key other than `s` are as they were; when the
multiplexer succeeds the only reply is `terminal_ready` for `s` if the message was
`terminal_open`, and there is no reply otherwise. A frame of one of the four
terminal types is routed here by the dispatcher with the map decoded from it. -/
theorem terminal_reply (c : Client) (msg : JObj) (io : TermIO) (wire : SendEnv) :
    (∀ e, (c.termManager.HandleMessage (Except.ok msg) io).2 = some e →
      (c.handleTerminalMessage msg io wire).sent =
        [OutMsg.terminalError (msg.getString "sessionId") e] ∧
      (c.handleTerminalMessage msg io wire).effects =
        (sendJSON { wire with conn := c.conn }
          (OutMsg.terminalError (msg.getString "sessionId") e)).2 ∧
      (c.handleTerminalMessage msg io wire).started = []) ∧
    ((c.termManager.HandleMessage (Except.ok msg) io).2 = none →
      (msg.getString "type" = "terminal_open" →
        (c.handleTerminalMessage msg io wire).sent =
          [OutMsg.terminalReady (msg.getString "sessionId")] ∧
        (c.handleTerminalMessage msg io wire).effects =
          (sendJSON { wire with conn := c.conn }
            (OutMsg.terminalReady (msg.getString "sessionId"))).2) ∧
      (msg.getString "type" ≠ "terminal_open" →
        (c.handleTerminalMessage msg io wire).sent = [] ∧
        (c.handleTerminalMessage msg io wire).effects = [])) ∧
    (c.handleTerminalMessage msg io wire).client.termManager =
      (c.termManager.HandleMessage (Except.ok msg) io).1 ∧
    (∀ k', k' ≠ msg.getString "sessionId" →
      (c.handleTerminalMessage msg io wire).client.termManager.sessions.lookup k' =
        c.termManager.sessions.lookup k') ∧
    (∀ q, c.termManager.sessions.lookup (msg.getString "sessionId") ≠ some q →
      q < c.termManager.heap.length →
      (c.handleTerminalMessage msg io wire).client.termManager.heap[q]? =
        c.termManager.heap[q]?) ∧
    (∀ events k' p', c.termManager = NewManager.run events →
      k' ≠ msg.getString "sessionId" → c.termManager.sessions.lookup k' = some p' →
      (c.handleTerminalMessage msg io wire).client.termManager.sessions.lookup k' = some p' ∧
      (c.handleTerminalMessage msg io wire).client.termManager.heap[p']? =
        c.termManager.heap[p']?) ∧
    (∀ doc : JDoc, doc.toMap = msg →
      (msg.getString "type" = "terminal_open" ∨ msg.getString "type" = "terminal_input" ∨
        msg.getString "type" = "terminal_resize" ∨ msg.getString "type" = "terminal_close") →
      c.handleMessage (Except.ok doc) io wire = c.handleTerminalMessage msg io wire) := by
  have hcl : (c.handleTerminalMessage msg io wire).client.termManager =
      (c.termManager.HandleMessage (Except.ok msg) io).1 := by
    cases h : (c.termManager.HandleMessage (Except.ok msg) io).2 with
    | some e => rw [handleTerminalMessage_error c msg io wire e h]
    | none =>
      rw [handleTerminalMessage_ok c msg io wire h]
      split <;> rfl
  have hoth := HandleMessage_others c.termManager msg io
  refine ⟨?_, ?_, hcl, ?_, ?_, ?_, ?_⟩
  rotate_right
  · intro doc hd ht
    subst hd
    exact handleMessage_terminal c doc io wire ht
  · intro e h
    rw [handleTerminalMessage_error c msg io wire e h]
    exact ⟨rfl, rfl, rfl⟩
  · intro h
    rw [handleTerminalMessage_ok c msg io wire h]
    constructor
    · intro ht
      rw [if_pos ht]
      exact ⟨rfl, rfl⟩
    · intro ht
      rw [if_neg ht]
      exact ⟨rfl, rfl⟩
  · intro k' hk'
    rw [hcl]
    exact hoth.1 k' hk'
  · intro q hq hlt
    rw [hcl]
    exact hoth.2 q hq hlt
  · intro events k' p' hev hk' hl
    have hi : c.termManager.Inv := by
      rw [hev]
      exact Manager.inv_run events NewManager Manager.inv_new
    rcases Manager.Inv_distinct c.termManager hi _ k' p' hk' hl with ⟨hd, hlt⟩
    rw [hcl]
    exact ⟨(hoth.1 k' hk').trans hl, hoth.2 p' hd hlt⟩

/-- C13 on a client with one open session: an input for an unknown session is
answered with one `terminal_error`, and a successful open with one `terminal_ready`. -/
theorem terminal_reply_witness :
    ((clientOne.handleTerminalMessage
        [("type", JVal.str "terminal_input"), ("sessionId", JVal.str "s9")] ioOk liveEnv).sent =
        [OutMsg.terminalError
          (JObj.getString [("type", JVal.str "terminal_input"), ("sessionId", JVal.str "s9")]
            "sessionId") "session not found: s9"] ∧
      (clientOne.handleTerminalMessage
        [("type", JVal.str "terminal_input"), ("sessionId", JVal.str "s9")] ioOk liveEnv).effects =
        (sendJSON { liveEnv with conn := clientOne.conn }
          (OutMsg.terminalError
            (JObj.getString [("type", JVal.str "terminal_input"), ("sessionId", JVal.str "s9")]
              "sessionId") "session not found: s9")).2 ∧
      (clientOne.handleTerminalMessage
        [("type", JVal.str "terminal_input"), ("sessionId", JVal.str "s9")] ioOk liveEnv).started =
        []) ∧
    ((clientOne.handleTerminalMessage
        [("type", JVal.str "terminal_open"), ("sessionId", JVal.str "s2")] ioOk liveEnv).sent =
        [OutMsg.terminalReady
          (JObj.getString [("type", JVal.str "terminal_open"), ("sessionId", JVal.str "s2")]
            "sessionId")] ∧
      (clientOne.handleTerminalMessage
        [("type", JVal.str "terminal_open"), ("sessionId", JVal.str "s2")] ioOk liveEnv).effects =
        (sendJSON { liveEnv with conn := clientOne.conn }
          (OutMsg.terminalReady
            (JObj.getString [("type", JVal.str "terminal_open"), ("sessionId", JVal.str "s2")]
              "sessionId"))).2) :=
  ⟨(terminal_reply clientOne [("type", JVal.str "terminal_input"), ("sessionId", JVal.str "s9")]
      ioOk liveEnv).1 "session not found: s9" (by decide),
   ((terminal_reply clientOne [("type", JVal.str "terminal_open"), ("sessionId", JVal.str "s2")]
      ioOk liveEnv).2.1 (by decide)).1 (by decide)⟩


/-! ## Decoding of execute frames -/

theorem Decoding.fail_msg (d : Decoding) (e : String) : (d.fail e).msg = d.msg := by
  unfold Decoding.fail
  cases d.err <;> rfl

theorem Decoding.fail_err (d : Decoding) (e : String) : ∃ e', (d.fail e).err = some e' := by
  unfold Decoding.fail
  cases h : d.err with
  | none => exact ⟨e, rfl⟩
  | some e0 => exact ⟨e0, h⟩

theorem Decoding.fail_keeps (d : Decoding) (e e0 : String) (h : d.err = some e0) :
    (d.fail e).err = some e0 := by
  unfold Decoding.fail
  rw [h]
  exact h

theorem decodeMember_err_keeps (d : Decoding) (member : String × JVal) (e0 : String)
    (h : d.err = some e0) : (decodeMember d member).err = some e0 := by
  unfold decodeMember
  split
  · exact h
  · split
    · exact h
    · split
      · exact h
      · exact Decoding.fail_keeps d _ e0 h
    · exact Decoding.fail_keeps d _ e0 h
  · split
    · exact h
    · exact h
    · exact Decoding.fail_keeps d _ e0 h

theorem foldl_decodeMember_err_keeps (doc : JDoc) :
    ∀ (d : Decoding) (e0 : String), d.err = some e0 →
      (doc.foldl decodeMember d).err = some e0 := by
  induction doc with
  | nil => intro d e0 h; exact h
  | cons member rest ih =>
    intro d e0 h
    exact ih _ e0 (decodeMember_err_keeps d member e0 h)

theorem decodeMember_wrongType (d : Decoding) (member : String × JVal) (f : ExecField)
    (hf : fieldFor member.1 = some f) (hw : wrongType f member.2 = true) :
    ∃ e, (decodeMember d member).err = some e := by
  rcases member with ⟨key, v⟩
  simp only at hf hw
  unfold decodeMember
  simp only [hf]
  cases f <;> cases v <;> simp [wrongType] at hw <;>
    first
    | exact Decoding.fail_err d _
    | (dsimp only
       rw [if_neg (by intro hc; omega)]
       exact Decoding.fail_err d _)

theorem foldl_decodeMember_wrongType (doc : JDoc) :
    ∀ (d : Decoding) (member : String × JVal) (f : ExecField), member ∈ doc →
      fieldFor member.1 = some f → wrongType f member.2 = true →
      ∃ e, (doc.foldl decodeMember d).err = some e := by
  induction doc with
  | nil => intro d member f hm; exact absurd hm (by simp)
  | cons x rest ih =>
    intro d member f hm hf hw
    rw [List.mem_cons] at hm
    rcases hm with hm | hm
    · subst hm
      rcases decodeMember_wrongType d member f hf hw with ⟨e, he⟩
      exact ⟨e, foldl_decodeMember_err_keeps rest _ e he⟩
    · exact ih _ member f hm hf hw

theorem decodeMember_JobID (d : Decoding) (member : String × JVal)
    (hf : fieldFor member.1 ≠ some ExecField.jobId) :
    (decodeMember d member).msg.JobID = d.msg.JobID := by
  rcases member with ⟨key, v⟩
  simp only at hf
  unfold decodeMember
  cases hk : fieldFor key with
  | none => rfl
  | some f =>
    cases f with
    | jobId => exact absurd hk hf
    | timeout =>
      simp only
      cases v with
      | num n => simp only; split <;> first | rfl | exact congrArg _ (Decoding.fail_msg d _)
      | null => rfl
      | str s => exact congrArg _ (Decoding.fail_msg d _)
      | frac n => exact congrArg _ (Decoding.fail_msg d _)
      | other => exact congrArg _ (Decoding.fail_msg d _)
    | msgType =>
      simp only
      cases v <;> first | rfl | exact congrArg _ (Decoding.fail_msg d _)
    | taskId =>
      simp only
      cases v <;> first | rfl | exact congrArg _ (Decoding.fail_msg d _)
    | script =>
      simp only
      cases v <;> first | rfl | exact congrArg _ (Decoding.fail_msg d _)

theorem decodeMember_Script (d : Decoding) (member : String × JVal)
    (hf : fieldFor member.1 ≠ some ExecField.script) :
    (decodeMember d member).msg.Script = d.msg.Script := by
  rcases member with ⟨key, v⟩
  simp only at hf
  unfold decodeMember
  cases hk : fieldFor key with
  | none => rfl
  | some f =>
    cases f with
    | script => exact absurd hk hf
    | timeout =>
      simp only
      cases v with
      | num n => simp only; split <;> first | rfl | exact congrArg _ (Decoding.fail_msg d _)
      | null => rfl
      | str s => exact congrArg _ (Decoding.fail_msg d _)
      | frac n => exact congrArg _ (Decoding.fail_msg d _)
      | other => exact congrArg _ (Decoding.fail_msg d _)
    | msgType =>
      simp only
      cases v <;> first | rfl | exact congrArg _ (Decoding.fail_msg d _)
    | taskId =>
      simp only
      cases v <;> first | rfl | exact congrArg _ (Decoding.fail_msg d _)
    | jobId =>
      simp only
      cases v <;> first | rfl | exact congrArg _ (Decoding.fail_msg d _)

theorem foldl_decodeMember_JobID (doc : JDoc) :
    ∀ d : Decoding, (∀ member ∈ doc, fieldFor member.1 ≠ some ExecField.jobId) →
      (doc.foldl decodeMember d).msg.JobID = d.msg.JobID := by
  induction doc with
  | nil => intro d _; rfl
  | cons x rest ih =>
    intro d h
    rw [List.foldl_cons, ih _ (fun m hm => h m (List.mem_cons_of_mem x hm))]
    exact decodeMember_JobID d x (h x (List.mem_cons_self x rest))

theorem foldl_decodeMember_Script (doc : JDoc) :
    ∀ d : Decoding, (∀ member ∈ doc, fieldFor member.1 ≠ some ExecField.script) →
      (doc.foldl decodeMember d).msg.Script = d.msg.Script := by
  induction doc with
  | nil => intro d _; rfl
  | cons x rest ih =>
    intro d h
    rw [List.foldl_cons, ih _ (fun m hm => h m (List.mem_cons_of_mem x hm))]
    exact decodeMember_Script d x (h x (List.mem_cons_self x rest))

theorem decodeExecuteMessage_ok (doc : JDoc) (m : ExecuteMessage)
    (h : decodeExecuteMessage doc = Except.ok m) :
    (doc.foldl decodeMember { msg := ExecuteMessage.zero, err := none }).err = none ∧
    m = (doc.foldl decodeMember { msg := ExecuteMessage.zero, err := none }).msg := by
  unfold decodeExecuteMessage at h
  split at h
  · exact absurd h (by simp)
  · next he =>
    injection h with h
    exact ⟨he, h.symm⟩

/-- How the decoder treats the frames `frameCapitalKey` and `frameFractionalTimeout`:
a job id under a key in capital letters is taken, and a timeout of `5.0` is a type
error. -/
theorem decodeExecuteMessage_examples :
    decodeExecuteMessage frameCapitalKey =
      Except.ok { msgType := "execute", JobID := "j1", TaskID := "", Script := "echo hi",
                  Timeout := 0 } ∧
    decodeExecuteMessage frameFractionalTimeout =
      Except.error "json: cannot unmarshal into Go struct field ExecuteMessage.timeout of type int" ∧
    (clientOne.handleMessage (Except.ok frameCapitalKey) ioOk liveEnv).started =
      [{ msgType := "execute", JobID := "j1", TaskID := "", Script := "echo hi", Timeout := 0 }] ∧
    (clientOne.handleMessage (Except.ok frameFractionalTimeout) ioOk liveEnv).started = [] := by
  refine ⟨rfl, rfl, by decide, by decide⟩

/-- C12, refuted as stated: an execute frame without a job id is decoded with the
empty job id and its job is started, and a `terminal_input` frame without a session
id is answered with a `terminal_error` that is written to the socket. -/
theorem handleMessage_counterexample :
    (clientOne.handleMessage (Except.ok frameNoJobId) ioOk liveEnv).started =
      [{ msgType := "execute", JobID := "", TaskID := "", Script := "echo hi", Timeout := 0 }] ∧
    (clientOne.handleMessage (Except.ok frameNoSessionId) ioOk liveEnv).sent =
      [OutMsg.terminalError "" "missing sessionId"] ∧
    (clientOne.handleMessage (Except.ok frameNoSessionId) ioOk liveEnv).effects =
      [Effect.wsWrite (OutMsg.terminalError "" "missing sessionId")] := by
  refine ⟨by decide, by decide, by decide⟩

/-- C12, amended: a frame that is not valid JSON, and an execute frame that does
not decode into `ExecuteMessage`, as one with a value of the wrong JSON type for a
field, are dropped: no job is started, the client and its sessions are as they
were, and nothing is handed to `sendJSON`. An execute frame that decodes has its job
started; when no key of the frame names the job id, or the script, even with case
ignored, that field is the empty string. A terminal frame without a session id
starts no job and leaves the client as it was, but is answered with one
`terminal_error` whose session id is empty and whose text is "missing sessionId". -/
theorem handleMessage_decode_errors (c : Client) (io : TermIO) (wire : SendEnv) (doc : JDoc) :
    (∀ e, c.handleMessage (Except.error e) io wire = Dispatch.dropped c) ∧
    (doc.toMap.getString "type" = "execute" →
      (∀ e, decodeExecuteMessage doc = Except.error e →
        c.handleMessage (Except.ok doc) io wire = Dispatch.dropped c) ∧
      (∀ member f, member ∈ doc → fieldFor member.1 = some f → wrongType f member.2 = true →
        c.handleMessage (Except.ok doc) io wire = Dispatch.dropped c) ∧
      (∀ m, decodeExecuteMessage doc = Except.ok m →
        c.handleMessage (Except.ok doc) io wire =
          { client := c, started := [m], sent := [], effects := [] } ∧
        ((∀ member ∈ doc, fieldFor member.1 ≠ some ExecField.jobId) → m.JobID = "") ∧
        ((∀ member ∈ doc, fieldFor member.1 ≠ some ExecField.script) → m.Script = ""))) ∧
    ((doc.toMap.getString "type" = "terminal_open" ∨
        doc.toMap.getString "type" = "terminal_input" ∨
        doc.toMap.getString "type" = "terminal_resize" ∨
        doc.toMap.getString "type" = "terminal_close") →
      doc.toMap.getString "sessionId" = "" →
      c.handleMessage (Except.ok doc) io wire =
        { client := c, started := [],
          sent := [OutMsg.terminalError "" "missing sessionId"],
          effects := (sendJSON { wire with conn := c.conn }
            (OutMsg.terminalError "" "missing sessionId")).2 }) := by
  refine ⟨fun _ => rfl, ?_, ?_⟩
  · intro ht
    have hdrop : ∀ e, decodeExecuteMessage doc = Except.error e →
        c.handleMessage (Except.ok doc) io wire = Dispatch.dropped c := by
      intro e he
      simp only [Client.handleMessage, ht, if_true, he]
    refine ⟨hdrop, ?_, ?_⟩
    · intro member f hm hf hw
      rcases foldl_decodeMember_wrongType doc { msg := ExecuteMessage.zero, err := none }
        member f hm hf hw with ⟨e, he⟩
      apply hdrop e
      unfold decodeExecuteMessage
      rw [he]
    · intro m hm
      refine ⟨by simp only [Client.handleMessage, ht, if_true, hm], ?_, ?_⟩
      · intro hl
        rw [(decodeExecuteMessage_ok doc m hm).2, foldl_decodeMember_JobID doc _ hl]
        rfl
      · intro hl
        rw [(decodeExecuteMessage_ok doc m hm).2, foldl_decodeMember_Script doc _ hl]
        rfl
  · intro ht hk
    rw [handleMessage_terminal c doc io wire ht,
      handleTerminalMessage_error c doc.toMap io wire "missing sessionId"
        (by rw [HandleMessage_empty_key c.termManager doc.toMap io hk]),
      HandleMessage_empty_key c.termManager doc.toMap io hk, hk]

/-- C12 on a frame that is not JSON, on an execute frame with a timeout of `5.0`,
and on an execute frame without a job id. -/
theorem handleMessage_decode_errors_witness :
    clientOne.handleMessage (Except.error "invalid character") ioOk liveEnv =
      Dispatch.dropped clientOne ∧
    clientOne.handleMessage (Except.ok frameFractionalTimeout) ioOk liveEnv =
      Dispatch.dropped clientOne ∧
    (clientOne.handleMessage (Except.ok frameNoJobId) ioOk liveEnv =
        { client := clientOne,
          started := [{ msgType := "execute", JobID := "", TaskID := "", Script := "echo hi",
                        Timeout := 0 }],
          sent := [], effects := [] } ∧
      ((∀ member ∈ frameNoJobId, fieldFor member.1 ≠ some ExecField.jobId) →
        ({ msgType := "execute", JobID := "", TaskID := "", Script := "echo hi",
           Timeout := 0 } : ExecuteMessage).JobID = "") ∧
      ((∀ member ∈ frameNoJobId, fieldFor member.1 ≠ some ExecField.script) →
        ({ msgType := "execute", JobID := "", TaskID := "", Script := "echo hi",
           Timeout := 0 } : ExecuteMessage).Script = "")) :=
  ⟨(handleMessage_decode_errors clientOne ioOk liveEnv []).1 "invalid character",
   ((handleMessage_decode_errors clientOne ioOk liveEnv frameFractionalTimeout).2.1
      (by decide)).2.1 ("timeout", JVal.frac 5) ExecField.timeout (by decide) (by decide)
      (by decide),
   ((handleMessage_decode_errors clientOne ioOk liveEnv frameNoJobId).2.1 (by decide)).2.2
      { msgType := "execute", JobID := "", TaskID := "", Script := "echo hi", Timeout := 0 } rfl⟩

end EasyShell
